import Mathlib

/-!
Verification of the dexompiler core: instruction decoder, basic-block CFG
builder and block feature extractor, as a shallow embedding of the Rust
sources.  The repository carries two revisions of the decoder/builder:

* `IR`   — `src/instruction.rs` (operand-level decoder, no bounds checks on
           operand words) together with `src/graph.rs` / `src/block.rs`
           (the `DexControlFlowGraph::get_blocks` work-list builder);
* `DP`   — `src/dex_parsing/instruction.rs` (length-only decoder with an
           explicit remaining-length check);
* `DPM`  — `src/dex_parsing/instruction/mod.rs` (typed-operand decoder with
           a cursor argument that it advances in place);
* `DexParsing` — `src/dex_parsing/mod.rs` (`get_blocks` / `into_blocks`).

Machine integers are embedded as `Nat`/`Int` with explicit truncations and
sign extensions.  A Rust panic (out-of-bounds slice index, `unwrap` on an
error, `expect` failure) is embedded as `Option.none` propagating out of the
function; returned values are `Option.some`.
-/

namespace Dexompiler

/-- `b as i8` reinterpreted as a mathematical integer (sign extension of an
8-bit value). -/
def sext8 (b : Nat) : Int := if b < 128 then (b : Int) else (b : Int) - 256

/-- `w as i16` reinterpreted as a mathematical integer (sign extension of a
16-bit value). -/
def sext16 (w : Nat) : Int := if w < 32768 then (w : Int) else (w : Int) - 65536

/-- `v as i32` reinterpreted as a mathematical integer (sign extension of a
32-bit value). -/
def sext32 (v : Nat) : Int := if v < 2 ^ 31 then (v : Int) else (v : Int) - 2 ^ 32

/-- `x as usize` for an `i32` value `x`: a negative value wraps to
`2^64 + x`. -/
def usizeOfI32 (x : Int) : Nat := (x % (2 : Int) ^ 64).toNat

/-- `x as u32` for an `i32` value `x`: a negative value wraps to
`2^32 + x`. -/
def u32OfI32 (x : Int) : Nat := (x % (2 : Int) ^ 32).toNat

/-- Low byte of a 16-bit word: `(word & 0xff) as u8` (`split_word!`). -/
def opcodeByte (w : Nat) : Nat := w % 256

/-- High byte of a 16-bit word: `(word >> 8) as u8` (`split_word!`). -/
def immArgs (w : Nat) : Nat := w / 256 % 256

/-- `concat_words!(a, b)`: `((b as u32) << 16) | (a as u32)` for 16-bit
words `a`, `b`. -/
def concatWords2 (a b : Nat) : Nat := b * 2 ^ 16 + a % 2 ^ 16

/-- `concat_words!(a, b, c, d)`:
`((b as u64) << 48) | ((a as u64) << 32) | ((d as u64) << 16) | (c as u64)`
— note the source macro places `c` in the LOW word and `b` in the HIGH word.
-/
def concatWords4 (a b c d : Nat) : Nat :=
  b * 2 ^ 48 + a % 2 ^ 16 * 2 ^ 32 + d % 2 ^ 16 * 2 ^ 16 + c % 2 ^ 16

/-- Modelled from the spec: the opcode catalog (the `Opcode` enum with its
`FromPrimitive` instance lives in `opcode.rs`, which is not under `src/`).
Per the spec every byte maps to exactly one outcome — a known opcode, or a
reserved/unassigned marker that makes decoding fail.  The reserved set is
exactly the set both decoders reject in their explicit reserved arm:
`0x3e..=0x43 | 0x73 | 0x79..=0x7a | 0xe3..=0xf9`.  `FromPrimitive::from_u8`
returns `None` precisely on this set. -/
def reservedByte (b : Nat) : Bool :=
  (0x3e ≤ b && b ≤ 0x43) || b == 0x73 || (0x79 ≤ b && b ≤ 0x7a) ||
    (0xe3 ≤ b && b ≤ 0xf9)

/-- In-place mutation of the element at index `i` of a vector (through an
`Rc<RefCell<..>>` in the source); out-of-range indices leave the list
unchanged (the sources never produce one). -/
def modifyIdx (f : α → α) : List α → Nat → List α
  | [], _ => []
  | b :: bs, 0 => f b :: bs
  | b :: bs, i + 1 => b :: modifyIdx f bs i

/-- `InstructionParsingError { byte, offset }` (identical in all three
decoder revisions). -/
structure InstructionParsingError where
  byte : Nat
  offset : Nat
deriving DecidableEq, Repr

namespace IR
/-!  Embedding of `src/instruction.rs` (+ `src/reference.rs`), the
operand-level decoder used by `src/graph.rs`. -/

/-- The seven constant-pool reference kinds of `reference.rs`. -/
inductive RefKind
  | string | type | field | method | methodHandle | prototype | callSite
deriving DecidableEq, Repr

/-- `reference.rs::Item`.  In the source each variant wraps the object
fetched from the dex constant pool; the object is determined by the kind and
the index, so the embedding records those. -/
structure Item where
  kind : RefKind
  index : Nat
deriving DecidableEq, Repr

/-- The dex constant pool, an external collaborator: `dex t i` tells whether
the pool resolves an item of kind `t` at index `i`.  `reference.rs` calls
`.expect(..)` on each lookup, so a failed lookup is a panic. -/
def DexPool := RefKind → Nat → Bool

/-- A pool that resolves every index (used for concrete runs whose buffers
contain no constant-pool instruction at all). -/
def stubPool : DexPool := fun _ _ => true

/-- `Item::from_short_index`: every kind is looked up in the dex (panicking
on failure) except `CallSite`, which wraps the raw index. -/
def Item.fromShortIndex (dex : DexPool) (t : RefKind) (index : Nat) :
    Option Item :=
  match t with
  | .callSite => some ⟨.callSite, index⟩
  | _ => if dex t index then some ⟨t, index⟩ else none

/-- `Item::from_index`: only `String`, `Type` and `MethodHandle` are legal;
any other kind hits the `panic!` arm. -/
def Item.fromIndex (dex : DexPool) (t : RefKind) (index : Nat) : Option Item :=
  match t with
  | .string | .type | .methodHandle =>
    if dex t index then some ⟨t, index⟩ else none
  | _ => none

/-- `instruction.rs::Argument`.  Numeric payloads are kept with the
signedness of the Rust field: unsigned fields as `Nat`, signed fields as
`Int`. -/
inductive Argument
  | packedRegister (r : Nat)
  | wideRegister (r : Nat)
  | immediateSignedByte (v : Int)
  | constantPoolIndex (item : Item)
  | immediateSignedHat (v : Int)
  | immediateSigned32 (v : Nat)
  | immediateSigned64 (v : Nat)
  | immediateSignedNibble (v : Int)
  | immediateSignedShort (v : Int)
  | branchTarget (v : Int)
deriving DecidableEq, Repr

/-- `instruction.rs::Instruction`.  `opcode` is the opcode byte (the Rust
`Opcode` enum is `#[repr(u8)]`-identified with its byte via
`FromPrimitive`, and `graph.rs` always matches on `opcode as u8`). -/
structure Instruction where
  opcode : Nat
  offset : Nat
  arguments : List Argument
  length : Nat
deriving DecidableEq, Repr

/-- `Instruction::try_from_raw_bytecode` of `src/instruction.rs`.
`raw_bytecode` is re-sliced at `offset`, so operand word `k` is
`buf[offset + k]`; the source indexes these words without any bounds check,
so a missing word is a panic (`none`).  The decoder returns
`Ok(None)` for a payload-table marker and `Err` for a reserved byte. -/
def tryFromRawBytecode (dex : DexPool) (buf : List Nat) (offset : Nat) :
    Option (Except InstructionParsingError (Option Instruction)) :=
  match buf[offset]? with
  | none => none
  | some w0 =>
    let b := opcodeByte w0
    let ia := immArgs w0
    if reservedByte b then some (.error ⟨b, offset⟩)
    else
      -- the body of the big `match`: `.ok none` embeds the early
      -- `return Ok(None)` of the payload-marker case, `.ok (some (args, l))`
      -- the normal `(arguments, length)` pair.
      let core : Option (Except InstructionParsingError
          (Option (List Argument × Nat))) :=
        if b = 0x0 then
          if 1 ≤ ia ∧ ia ≤ 3 then some (.ok none)
          else some (.ok (some ([], 1)))
        else if b = 0x1 ∨ b = 0x4 ∨ b = 0x7 ∨ (0xa ≤ b ∧ b ≤ 0x11) ∨
            b = 0x1d ∨ b = 0x1e ∨ b = 0x21 ∨ b = 0x27 ∨
            (0x7b ≤ b ∧ b ≤ 0x8f) ∨ (0xb0 ≤ b ∧ b ≤ 0xcf) then
          some (.ok (some ([.packedRegister ia], 1)))
        else if b = 0x2 ∨ b = 0x5 ∨ b = 0x8 then do
          let w1 ← buf[offset + 1]?
          some (.ok (some ([.packedRegister ia, .wideRegister w1], 2)))
        else if (0x2d ≤ b ∧ b ≤ 0x31) ∨ (0x44 ≤ b ∧ b ≤ 0x51) ∨
            (0x90 ≤ b ∧ b ≤ 0xaf) then do
          let w1 ← buf[offset + 1]?
          some (.ok (some ([.packedRegister ia, .packedRegister (opcodeByte w1),
            .packedRegister (immArgs w1)], 2)))
        else if b = 0x3 ∨ b = 0x6 ∨ b = 0x9 then do
          let w1 ← buf[offset + 1]?
          let w2 ← buf[offset + 2]?
          some (.ok (some ([.wideRegister w1, .wideRegister w2], 3)))
        else if 0xd8 ≤ b ∧ b ≤ 0xe2 then do
          let w1 ← buf[offset + 1]?
          some (.ok (some ([.packedRegister ia, .packedRegister (opcodeByte w1),
            .immediateSignedByte (sext8 (immArgs w1))], 2)))
        else if b = 0x1a then do
          let w1 ← buf[offset + 1]?
          let item ← Item.fromShortIndex dex .string w1
          some (.ok (some ([.packedRegister ia, .constantPoolIndex item], 2)))
        else if b = 0x1c ∨ b = 0x1f ∨ b = 0x20 ∨ b = 0x22 ∨ b = 0x23 then do
          let w1 ← buf[offset + 1]?
          let item ← Item.fromShortIndex dex .type w1
          some (.ok (some ([.packedRegister ia, .constantPoolIndex item], 2)))
        else if 0x52 ≤ b ∧ b ≤ 0x6d then do
          let w1 ← buf[offset + 1]?
          let item ← Item.fromShortIndex dex .field w1
          some (.ok (some ([.packedRegister ia, .constantPoolIndex item], 2)))
        else if b = 0xfe then do
          let w1 ← buf[offset + 1]?
          let item ← Item.fromShortIndex dex .methodHandle w1
          some (.ok (some ([.packedRegister ia, .constantPoolIndex item], 2)))
        else if b = 0xff then do
          let w1 ← buf[offset + 1]?
          let item ← Item.fromShortIndex dex .prototype w1
          some (.ok (some ([.packedRegister ia, .constantPoolIndex item], 2)))
        else if b = 0x1b then do
          let w1 ← buf[offset + 1]?
          let w2 ← buf[offset + 2]?
          let item ← Item.fromIndex dex .string (concatWords2 w1 w2)
          some (.ok (some ([.packedRegister ia, .constantPoolIndex item], 3)))
        else if b = 0x24 ∨ b = 0x25 then do
          let w1 ← buf[offset + 1]?
          let w2 ← buf[offset + 2]?
          let item ← Item.fromShortIndex dex .type w1
          some (.ok (some ([.packedRegister ia, .constantPoolIndex item,
            .wideRegister w2], 3)))
        else if (0x6e ≤ b ∧ b ≤ 0x72) ∨ (0x74 ≤ b ∧ b ≤ 0x78) then do
          let w1 ← buf[offset + 1]?
          let w2 ← buf[offset + 2]?
          let item ← Item.fromShortIndex dex .method w1
          some (.ok (some ([.packedRegister ia, .constantPoolIndex item,
            .wideRegister w2], 3)))
        else if b = 0xfc ∨ b = 0xfd then do
          let w1 ← buf[offset + 1]?
          let w2 ← buf[offset + 2]?
          let item ← Item.fromShortIndex dex .callSite w1
          some (.ok (some ([.packedRegister ia, .constantPoolIndex item,
            .wideRegister w2], 3)))
        else if b = 0xfa ∨ b = 0xfb then do
          let w1 ← buf[offset + 1]?
          let w3 ← buf[offset + 3]?
          let item1 ← Item.fromShortIndex dex .method w1
          let item2 ← Item.fromShortIndex dex .prototype w3
          some (.ok (some ([.constantPoolIndex item1, .constantPoolIndex item2], 4)))
        else if b = 0x15 ∨ b = 0x19 then do
          let w1 ← buf[offset + 1]?
          some (.ok (some ([.packedRegister ia, .immediateSignedHat (sext16 w1)], 2)))
        else if b = 0x14 ∨ b = 0x17 then do
          let w1 ← buf[offset + 1]?
          let w2 ← buf[offset + 2]?
          some (.ok (some ([.packedRegister ia,
            .immediateSigned32 (concatWords2 w1 w2)], 3)))
        else if b = 0x18 then do
          let w1 ← buf[offset + 1]?
          let w2 ← buf[offset + 2]?
          let w3 ← buf[offset + 3]?
          let w4 ← buf[offset + 4]?
          some (.ok (some ([.packedRegister ia,
            .immediateSigned64 (concatWords4 w1 w2 w3 w4)], 5)))
        else if b = 0x12 then
          some (.ok (some ([.packedRegister (ia / 16),
            .immediateSignedNibble (ia % 16)], 1)))
        else if b = 0x13 ∨ b = 0x16 then do
          let w1 ← buf[offset + 1]?
          some (.ok (some ([.packedRegister ia,
            .immediateSignedShort (sext16 w1)], 2)))
        else if 0xd0 ≤ b ∧ b ≤ 0xd7 then do
          let w1 ← buf[offset + 1]?
          some (.ok (some ([.packedRegister ia,
            .immediateSignedShort (sext16 w1)], 2)))
        else if b = 0x28 then
          -- `BranchTarget(immediate_args as i32)`: `immediate_args` is a
          -- `u8`, so the cast zero-extends.
          some (.ok (some ([.branchTarget (ia : Int)], 1)))
        else if b = 0x29 then do
          let w1 ← buf[offset + 1]?
          -- `raw_bytecode[1] as i32` zero-extends the `u16`.
          some (.ok (some ([.branchTarget (w1 : Int)], 2)))
        else if 0x32 ≤ b ∧ b ≤ 0x3d then do
          let w1 ← buf[offset + 1]?
          some (.ok (some ([.packedRegister ia, .branchTarget (w1 : Int)], 2)))
        else if b = 0x26 then do
          let w1 ← buf[offset + 1]?
          let w2 ← buf[offset + 2]?
          some (.ok (some ([.packedRegister ia,
            .branchTarget (sext32 (concatWords2 w1 w2))], 3)))
        else if b = 0x2a then do
          let w1 ← buf[offset + 1]?
          let w2 ← buf[offset + 2]?
          some (.ok (some ([.branchTarget (sext32 (concatWords2 w1 w2))], 3)))
        else if b = 0x2b ∨ b = 0x2c then do
          let w1 ← buf[offset + 1]?
          let w2 ← buf[offset + 2]?
          some (.ok (some ([.packedRegister ia,
            .branchTarget (sext32 (concatWords2 w1 w2))], 3)))
        else
          -- `0x3e..=0x43 | 0x73 | 0x79..=0x7a | 0xe3..=0xf9` — unreachable
          -- after the `FromPrimitive` gate, kept as in the source.
          some (.error ⟨b, offset⟩)
      match core with
      | none => none
      | some (.error e) => some (.error e)
      | some (.ok none) => some (.ok none)
      | some (.ok (some (arguments, length))) =>
        some (.ok (some ⟨b, offset, arguments, length⟩))

/-- `Instruction::jump_target`: resolves the instruction's branch argument
to an absolute word offset via `(*self.offset() as i32 + *target) as usize`.
(For method offsets below `2^31` the `usize → i32` truncation of `offset`
is the identity, which the embedding assumes.) -/
def Instruction.jumpTarget (i : Instruction) : Option Nat :=
  if i.opcode = 0x28 ∨ i.opcode = 0x29 ∨ i.opcode = 0x2a then
    match i.arguments.head? with
    | some (.branchTarget t) => some (usizeOfI32 ((i.offset : Int) + t))
    | _ => none
  else if i.opcode = 0x2b ∨ i.opcode = 0x2c ∨
      (0x32 ≤ i.opcode ∧ i.opcode ≤ 0x3d) then
    match i.arguments.getLast? with
    | some (.branchTarget t) => some (usizeOfI32 ((i.offset : Int) + t))
    | _ => none
  else none

end IR

namespace Graph
/-!  Embedding of `src/block.rs` (`BasicBlock`, `BlockContainer`) and
`src/graph.rs` (`DexControlFlowGraph::get_blocks`).

In the source, blocks live in `BlockContainer::blocks: Vec<Rc<RefCell<..>>>`
and reference each other through `Rc` pointers.  Every block is pushed into
that vector exactly once, at creation, so `Rc` identity coincides with the
block's index in the vector; the embedding stores predecessor/successor
edges as such indices.  The `visited` debug flag (never read during
construction) is dropped.

`RefCell` borrow state matters: while the work-list loop processes an
instruction it holds a mutable borrow of the current block, and
`BlockContainer::get_block_at_offset` silently skips any block whose
`try_borrow` fails.  The embedding passes the currently borrowed index as
the `skip` argument. -/

/-- `block.rs::BasicBlock`, with edges as indices into the container. -/
structure BasicBlock where
  offset : Nat
  excEntry : Bool
  prev : List Nat
  instructions : List IR.Instruction
  succ : List Nat
deriving DecidableEq, Repr

/-- `BasicBlock::add_prev`. -/
def BasicBlock.addPrev (j : Nat) (b : BasicBlock) : BasicBlock :=
  { b with prev := b.prev ++ [j] }

/-- `BasicBlock::add_succ`. -/
def BasicBlock.addSucc (j : Nat) (b : BasicBlock) : BasicBlock :=
  { b with succ := b.succ ++ [j] }

/-- `BasicBlock::push`. -/
def BasicBlock.pushInst (i : IR.Instruction) (b : BasicBlock) : BasicBlock :=
  { b with instructions := b.instructions ++ [i] }

/-- `block.rs::BlockContainer`.  `offsets` is a `HashSet<usize>`; only
membership is ever queried, so it is embedded as a list. -/
structure BlockContainer where
  blocks : List BasicBlock
  offsets : List Nat
deriving DecidableEq, Repr

/-- Mutation of the block at index `i` (through its `Rc<RefCell<..>>`). -/
def updBlock (c : BlockContainer) (i : Nat) (f : BasicBlock → BasicBlock) :
    BlockContainer :=
  { c with blocks := modifyIdx f c.blocks i }

/-- The search loop of `get_block_at_offset`: first index (from `j`) whose
block has the wanted offset, skipping the block at index `skip` (its
`try_borrow` fails while the work-list loop holds it mutably borrowed). -/
def findBlockIdx : List BasicBlock → Nat → Option Nat → Nat → Option Nat
  | [], _, _, _ => none
  | b :: bs, j, skip, ofs =>
    if skip ≠ some j ∧ b.offset = ofs then some j
    else findBlockIdx bs (j + 1) skip ofs

/-- `BlockContainer::get_block_at_offset`: return the (index of the) first
borrowable block with that offset, or register the offset and push a new
block whose `exc_entry` flag is `raw_bytecode[offset] == 0x0D` — reading
that word panics when `offset` is out of bounds. -/
def getBlockAtOffset (skip : Option Nat) (c : BlockContainer)
    (buf : List Nat) (ofs : Nat) : Option (BlockContainer × Nat) :=
  match findBlockIdx c.blocks 0 skip ofs with
  | some j => some (c, j)
  | none =>
    match buf[ofs]? with
    | none => none
    | some w =>
      some ({ blocks := c.blocks ++ [⟨ofs, w == 0x0D, [], [], []⟩],
              offsets := ofs :: c.offsets }, c.blocks.length)

/-- The `while !offsets.is_empty()` loop of
`DexControlFlowGraph::get_blocks`.  The work list is the `offsets` vector
(a stack: push/pop at the same end).  `cur` is the index of the `block`
variable.  `Instruction::try_from_raw_bytecode(..).unwrap()` panics on a
decode error.

The loop always terminates: popping offset `o < buf.length` pushes at most
one offset `o + length > o`, so the quantity
`sum over the work list of (buf.length + 1 - o)` strictly decreases at every
iteration; starting from the work list `[0]` it is `buf.length + 1`, so
there are at most `buf.length + 1` iterations and the fuel
`buf.length + 2` supplied by `getBlocks` is never exhausted. -/
def go (dex : IR.DexPool) (buf : List Nat) :
    Nat → BlockContainer → Nat → List Nat → Option (List BasicBlock)
  | 0, _, _, _ => none
  | _ + 1, c, _, [] => some c.blocks
  | fuel + 1, c, cur, o :: rest =>
    if buf.length ≤ o then some c.blocks   -- `break` leaves the loop
    else
      match (if c.offsets.contains o then getBlockAtOffset none c buf o
             else some (c, cur)) with
      | none => none
      | some (c1, cur1) =>
        match IR.tryFromRawBytecode dex buf o with
        | none => none                     -- panic inside the decoder
        | some (.error _) => none          -- `.unwrap()` on `Err` panics
        | some (.ok none) => go dex buf fuel c1 cur1 rest
        | some (.ok (some inst)) =>
          let no := o + inst.length
          if 0x32 ≤ inst.opcode ∧ inst.opcode ≤ 0x3D then
            match inst.jumpTarget with
            | none => none                 -- `jump_target().unwrap()`
            | some jt =>
              match getBlockAtOffset (some cur1) c1 buf jt with
              | none => none
              | some (c2, succIdx) =>
                let c3 := updBlock (updBlock c2 cur1 (.addSucc succIdx))
                  succIdx (.addPrev cur1)
                match getBlockAtOffset (some cur1) c3 buf o with
                | none => none
                | some (c4, nIdx) =>
                  let c5 := updBlock (updBlock (updBlock c4 cur1
                    (.addSucc nIdx)) nIdx (.addPrev cur1)) nIdx
                    (.pushInst inst)
                  go dex buf fuel c5 cur1 (no :: rest)
          else if 0x28 ≤ inst.opcode ∧ inst.opcode ≤ 0x2A then
            let c2 := updBlock c1 cur1 (.pushInst inst)
            match inst.jumpTarget with
            | none => none
            | some jt =>
              match getBlockAtOffset (some cur1) c2 buf jt with
              | none => none
              | some (c3, succIdx) =>
                let c4 := updBlock (updBlock c3 cur1 (.addSucc succIdx))
                  succIdx (.addPrev cur1)
                go dex buf fuel c4 cur1 (no :: rest)
          else if (0x0E ≤ inst.opcode ∧ inst.opcode ≤ 0x11) ∨
              inst.opcode = 0x27 then
            let c2 := updBlock c1 cur1 (.pushInst inst)
            if no < buf.length ∧ buf.getD no 0 ≠ 0 then
              match getBlockAtOffset (some cur1) c2 buf no with
              | none => none
              | some (c3, _) => go dex buf fuel c3 cur1 (no :: rest)
            else go dex buf fuel c2 cur1 rest
          else
            let c2 := updBlock c1 cur1 (.pushInst inst)
            if c2.offsets.contains no then
              match getBlockAtOffset (some cur1) c2 buf no with
              | none => none
              | some (c3, nIdx) =>
                let c4 := updBlock (updBlock c3 cur1 (.addSucc nIdx))
                  nIdx (.addPrev cur1)
                go dex buf fuel c4 cur1 (no :: rest)
            else go dex buf fuel c2 cur1 (no :: rest)

/-- `DexControlFlowGraph::get_blocks`: create the block at offset `0`
(reading `raw_bytecode[0]`, a panic on an empty buffer), seed the work list
with `[0]` and run the loop. -/
def getBlocks (dex : IR.DexPool) (buf : List Nat) :
    Option (List BasicBlock) :=
  match getBlockAtOffset none ⟨[], []⟩ buf 0 with
  | none => none
  | some (c0, b0) => go dex buf (buf.length + 2) c0 b0 [0]

end Graph

namespace Feat
/-!  Embedding of the feature extractor of `src/block.rs`
(`impl From<&&mut BasicBlock> for BasicBlockFeatures`).

The source stores counts and ratios as `f32`.  Counts are exact in `f32`
for any realistic block (below `2^24` instructions), and none of the
theorems below depends on the rounding of the final divisions, so ratios
are embedded as exact rationals.  The `BasicBlockFeatures` struct
declaration in the source names a different field set than the `From` impl
constructs; the embedding follows the fields the `From` impl computes.
The local `op_freq` map is computed but never read, and is omitted. -/

/-- `block.rs::Terminator`. -/
inductive Terminator
  | none | goto | ret | throw
deriving DecidableEq, Repr

/-- The per-category counters accumulated by the instruction loop. -/
structure Counts where
  moveC : Nat
  constC : Nat
  invoke : Nat
  op : Nat
  load : Nat
  store : Nat
deriving DecidableEq, Repr

/-- The counting loop of the `From` impl.  The `match` arms are ordered:
`0x01..=0x13` is tested before `0x12..=0x1C`, so opcodes `0x12`/`0x13`
count as moves, not as constant loads. -/
def countsOf (l : List IR.Instruction) : Counts :=
  l.foldl (fun a i =>
    let b := i.opcode
    if 0x01 ≤ b ∧ b ≤ 0x13 then { a with moveC := a.moveC + 1 }
    else if 0x12 ≤ b ∧ b ≤ 0x1C then { a with constC := a.constC + 1 }
    else if (0x6E ≤ b ∧ b ≤ 0x78) ∨ (0xFA ≤ b ∧ b ≤ 0xFD) then
      { a with invoke := a.invoke + 1 }
    else if (0x90 ≤ b ∧ b ≤ 0xE2) ∨ (0x7B ≤ b ∧ b ≤ 0x8F) then
      { a with op := a.op + 1 }
    else if (0x44 ≤ b ∧ b ≤ 0x4A) ∨ (0x52 ≤ b ∧ b ≤ 0x58) ∨
        (0x60 ≤ b ∧ b ≤ 0x66) then { a with load := a.load + 1 }
    else if (0x4B ≤ b ∧ b ≤ 0x51) ∨ (0x59 ≤ b ∧ b ≤ 0x5F) ∨
        (0x67 ≤ b ∧ b ≤ 0x6D) then { a with store := a.store + 1 }
    else a) ⟨0, 0, 0, 0, 0, 0⟩

/-- `block.rs::BasicBlockFeatures` (fields as constructed by the `From`
impl; `move_`/`const_` are rendered `moveC`/`constC`). -/
structure BasicBlockFeatures where
  instCnt : Nat
  store : Rat
  load : Rat
  op : Rat
  invoke : Rat
  moveC : Rat
  constC : Rat
  terminator : Terminator
  excEntry : Bool
deriving DecidableEq, Repr

/-- `BasicBlockFeatures::from`: count categories, then derive the
terminator from `block.instructions().last().unwrap()` — a panic (`none`)
when the block has no instructions — and divide each count by the
instruction count. -/
def fromBlock (b : Graph.BasicBlock) : Option BasicBlockFeatures :=
  let c := countsOf b.instructions
  match b.instructions.getLast? with
  | none => none
  | some lastI =>
    let terminator : Terminator :=
      if 0x0E ≤ lastI.opcode ∧ lastI.opcode ≤ 0x11 then .ret
      else if lastI.opcode = 0x27 then .throw
      else if 0x28 ≤ lastI.opcode ∧ lastI.opcode ≤ 0x2C then .goto
      else .none
    let length : Rat := b.instructions.length
    some ⟨b.instructions.length, c.store / length, c.load / length,
      c.op / length, c.invoke / length, c.moveC / length, c.constC / length,
      terminator, b.excEntry⟩

end Feat

namespace DP
/-!  Embedding of `src/dex_parsing/instruction.rs`: the length-only decoder
`Instruction::try_from_raw_bytecode(raw_bytecode, offset)
  -> Result<Option<(Instruction, usize)>, InstructionParsingError>`. -/

/-- `dex_parsing/instruction.rs::Instruction`. -/
structure Instruction where
  opcode : Nat
  mIdx : Option Nat
deriving DecidableEq, Repr

/-- The big `match opcode_byte` of `dex_parsing/instruction.rs`, computing
`(length, m_idx)`: `.ok none` embeds the early `return Ok(None)` of the
payload-marker case, and `rem` is `raw_bytecode.len()` after the re-slice,
i.e. `buf.length - offset`. -/
def lengthArms (buf : List Nat) (offset b ia rem : Nat) :
    Option (Except InstructionParsingError (Option (Nat × Option Nat))) :=
  if b = 0x0 then
    if 1 ≤ ia ∧ ia ≤ 3 then some (.ok none)
    else some (.ok (some (1, none)))
  else if b = 0x01 ∨ b = 0x04 ∨ b = 0x07 ∨ (0x0A ≤ b ∧ b ≤ 0x12) ∨
      b = 0x1D ∨ b = 0x1E ∨ b = 0x21 ∨ b = 0x27 ∨
      (0x7B ≤ b ∧ b ≤ 0x8F) ∨ (0xB0 ≤ b ∧ b ≤ 0xCF) then
    some (.ok (some (1, none)))
  else if b = 0x02 ∨ b = 0x05 ∨ b = 0x08 ∨ b = 0x13 ∨ b = 0x15 ∨
      b = 0x16 ∨ b = 0x19 ∨ b = 0x1A ∨ b = 0x1C ∨ b = 0x1F ∨
      b = 0x20 ∨ b = 0x22 ∨ b = 0x23 ∨ (0x2D ≤ b ∧ b ≤ 0x31) ∨
      (0x44 ≤ b ∧ b ≤ 0x6D) ∨ (0x90 ≤ b ∧ b ≤ 0xAF) ∨
      (0xD0 ≤ b ∧ b ≤ 0xE2) ∨ b = 0xFE ∨ b = 0xFF then
    some (.ok (some (2, none)))
  else if b = 0x03 ∨ b = 0x06 ∨ b = 0x09 ∨ b = 0x14 ∨ b = 0x17 ∨
      b = 0x1B ∨ (0x24 ≤ b ∧ b ≤ 0x26) ∨ b = 0xFC ∨ b = 0xFD then
    some (.ok (some (3, none)))
  else if (0x6E ≤ b ∧ b ≤ 0x72) ∨ (0x74 ≤ b ∧ b ≤ 0x78) then
    if rem < 3 then some (.error ⟨b, offset⟩)
    else
      match buf[offset + 2]? with
      | none => none
      | some w2 => some (.ok (some (3, some w2)))
  else if b = 0xFA ∨ b = 0xFB then
    if rem < 4 then some (.error ⟨b, offset⟩)
    else
      match buf[offset + 2]? with
      | none => none
      | some w2 => some (.ok (some (4, some w2)))
  else if b = 0x18 then some (.ok (some (5, none)))
  else if b = 0x28 then some (.ok (some (1, none)))
  else if b = 0x29 then some (.ok (some (2, none)))
  else if b = 0x2A then some (.ok (some (3, none)))
  else if b = 0x2B ∨ b = 0x2C then some (.ok (some (3, none)))
  else if 0x32 ≤ b ∧ b ≤ 0x3D then some (.ok (some (2, none)))
  else
    -- `0x3e..=0x43 | 0x73 | 0x79..=0x7a | 0xe3..=0xf9` — unreachable
    -- after the `FromPrimitive` gate, kept as in the source.
    some (.error ⟨b, offset⟩)

/-- `Instruction::try_from_raw_bytecode` of `dex_parsing/instruction.rs`.
After the re-slice at `offset`, `raw_bytecode.len()` is
`buf.length - offset`.  The two invoke arms of `lengthArms` check the
remaining length before reading their method-index word, and the epilogue
rejects any instruction whose `length` exceeds the remaining buffer. -/
def tryFromRawBytecode (buf : List Nat) (offset : Nat) :
    Option (Except InstructionParsingError (Option (Instruction × Nat))) :=
  match buf[offset]? with
  | none => none
  | some w0 =>
    let b := opcodeByte w0
    let rem := buf.length - offset
    if reservedByte b then some (.error ⟨b, offset⟩)
    else
      match lengthArms buf offset b (immArgs w0) rem with
      | none => none
      | some (.error e) => some (.error e)
      | some (.ok none) => some (.ok none)
      | some (.ok (some (length, mIdx))) =>
        if rem < length then some (.error ⟨b, offset⟩)
        else some (.ok (some (⟨b, mIdx⟩, length)))


end DP

namespace DPM
/-!  Embedding of `src/dex_parsing/instruction/mod.rs` (with
`intermediate.rs`): the typed-operand decoder
`Instruction::try_from_raw_bytecode(raw_bytecode, offset: &mut usize)`.
The in-place cursor is embedded by returning the final offset alongside the
result.  `u8`/`u16` casts and shifts are modelled with explicit `% 2^8` /
`% 2^16` truncations; shifting a `u16` by 16 or more (possible inside
`decode_invocation_parameters!` for inline-register counts above 5) is
modelled on unbounded naturals, i.e. as the release-mode masked result. -/

/-- `intermediate.rs::ConstantPoolIndex`. -/
inductive ConstantPoolIndex
  | u16 (v : Nat)
  | u32 (v : Nat)
deriving DecidableEq, Repr

/-- `intermediate.rs::ImmediateValue` (the floating-point variants are never
built by the decoder; their payloads are dropped). -/
inductive ImmediateValue
  | signed8 (v : Int)
  | signed16 (v : Int)
  | signed32 (v : Int)
  | arbitrary32 (v : Nat)
  | float32
  | signed64 (v : Int)
  | arbitrary64 (v : Nat)
  | float64
deriving DecidableEq, Repr

/-- `intermediate.rs::BranchOffset`. -/
inductive BranchOffset
  | u8 (v : Nat)
  | i8 (v : Int)
  | u16 (v : Nat)
  | i16 (v : Int)
  | u32 (v : Nat)
  | i32 (v : Int)
deriving DecidableEq, Repr

/-- `intermediate.rs::Register`. -/
inductive Register
  | byte (v : Nat)
  | word (v : Nat)
  | pair (a b : Nat)
deriving DecidableEq, Repr

/-- `Register::get_pairs`. -/
def Register.getPairs (w : Nat) : Register × Register :=
  (.pair (w % 16) (w % 16 + 1), .pair (w / 16) (w / 16 + 1))

/-- `Register::get_dst_pair`. -/
def Register.getDstPair (w : Nat) : Register × Register :=
  (.pair (w % 16) (w % 16 + 1), .byte (w / 16))

/-- `Register::get_src_pair`. -/
def Register.getSrcPair (w : Nat) : Register × Register :=
  (.byte (w % 16), .pair (w / 16) (w / 16 + 1))

/-- `split_registers!`: low nibble and `($word >> 4) as u8` of a word. -/
def splitRegisters (w : Nat) : Register × Register :=
  (.byte (w % 16), .byte (w / 16 % 256))

/-- `intermediate.rs::Switch`. -/
inductive Switch
  | packed (r : Register) (off : BranchOffset)
  | sparse (r : Register) (off : BranchOffset)
deriving DecidableEq, Repr

/-- `intermediate.rs::Conditional`. -/
inductive Conditional
  | eq (a b : Register)
  | ne (a b : Register)
  | lt (a b : Register)
  | ge (a b : Register)
  | gt (a b : Register)
  | le (a b : Register)
deriving DecidableEq, Repr

/-- `intermediate.rs::If`. -/
inductive IfKind
  | test (c : Conditional) (off : BranchOffset)
  | testz (c : Conditional) (off : BranchOffset)
deriving DecidableEq, Repr

/-- `intermediate.rs::Iop`. -/
inductive Iop
  | int (r : Register)
  | wide (p : Register × Register)
  | object (r : Register)
  | boolean (r : Register)
  | byte (r : Register)
  | char (r : Register)
  | short (r : Register)
deriving DecidableEq, Repr

/-- `intermediate.rs::IdentifiedOperation`. -/
inductive IdentifiedOperation
  | get (i : Iop)
  | put (i : Iop)
deriving DecidableEq, Repr

/-- `intermediate.rs::InvKind`. -/
inductive InvKind
  | virtual (m : ConstantPoolIndex) (regs : List Register)
  | super (m : ConstantPoolIndex) (regs : List Register)
  | direct (m : ConstantPoolIndex) (regs : List Register)
  | static (m : ConstantPoolIndex) (regs : List Register)
  | interface (m : ConstantPoolIndex) (regs : List Register)
deriving DecidableEq, Repr

/-- `intermediate.rs::Primitive`. -/
inductive Primitive
  | boolean | byte | char | short | int | long | float | double
deriving DecidableEq, Repr

/-- `intermediate.rs::Unop`. -/
inductive Unop
  | neg (p : Primitive)
  | not (p : Primitive)
  | convert (a b : Primitive)
deriving DecidableEq, Repr

/-- `intermediate.rs::Binop`. -/
inductive Binop
  | add (p : Primitive)
  | sub (p : Primitive)
  | mul (p : Primitive)
  | div (p : Primitive)
  | rem (p : Primitive)
  | and (p : Primitive)
  | or (p : Primitive)
  | xor (p : Primitive)
  | shl (p : Primitive)
  | shr (p : Primitive)
  | ushr (p : Primitive)
deriving DecidableEq, Repr

/-- `dex_parsing/instruction/mod.rs::Instruction` (`Return` and `If` are
rendered `ret` and `ifOp`). -/
inductive Instruction
  | nop
  | move (dst src : Register)
  | moveWide (dst src : Register)
  | moveObject (dst src : Register)
  | moveResult (dst : Register)
  | moveResultWide (dst : Register)
  | moveResultObject (dst : Register)
  | moveException (dst : Register)
  | ret (r : Option Register)
  | retWide (r : Register)
  | retObject (r : Register)
  | const (dst : Register) (v : ImmediateValue)
  | constString (dst : Register) (idx : ConstantPoolIndex)
  | constClass (dst : Register) (idx : ConstantPoolIndex)
  | monitorEnter (r : Register)
  | monitorExit (r : Register)
  | checkCast (r : Register) (idx : ConstantPoolIndex)
  | instanceOf (dst src : Register) (idx : ConstantPoolIndex)
  | arrayLength (dst arrRef : Register)
  | newInstance (dst : Register) (idx : ConstantPoolIndex)
  | newArray (dst size : Register) (idx : ConstantPoolIndex)
  | filledNewArray (idx : ConstantPoolIndex) (regs : List Register)
  | fillArrayData (arrRef : Register) (off : BranchOffset)
  | throw (r : Register)
  | goto (off : BranchOffset)
  | switch (s : Switch)
  | cmp (dst a b : Register)
  | ifOp (i : IfKind)
  | arrayOp (iop : IdentifiedOperation) (arrReg idxReg : Register)
  | instanceOp (iop : IdentifiedOperation) (objReg : Register)
      (idx : ConstantPoolIndex)
  | staticOp (iop : IdentifiedOperation) (idx : ConstantPoolIndex)
  | invokeKind (k : InvKind)
  | unop (u : Unop) (dst src : Register)
  | binop (b : Binop) (dst a b2 : Register)
  | binop2Addr (b : Binop) (dst src : Register)
  | binopLit (b : Binop) (dst src : Register) (v : ImmediateValue)
  | invokePolymorphic (n : Nat) (m : ConstantPoolIndex) (k : Nat)
      (regs : List Register) (p : ConstantPoolIndex)
  | invokeCustom (n : Nat) (c : ConstantPoolIndex) (regs : List Register)
  | constMethodHandle (dst : Register) (idx : ConstantPoolIndex)
  | constMethodType (dst : Register) (idx : ConstantPoolIndex)
deriving DecidableEq, Repr

/-- `identifiable_operation!`: classify a get/put opcode.  The
`_ => unreachable!()` arm is a panic (`none`); callers only pass bytes in
`0x44..=0x6D`.  The wide arms build `Register::Byte(immediate_args + 1)`,
a `u8` addition (wrap modelled with `% 256`). -/
def identifiableOperation (b ia : Nat) (dst : Register) :
    Option IdentifiedOperation :=
  if b = 0x44 ∨ b = 0x52 ∨ b = 0x60 then some (.get (.int dst))
  else if b = 0x45 ∨ b = 0x53 ∨ b = 0x61 then
    some (.get (.wide (dst, .byte ((ia + 1) % 256))))
  else if b = 0x46 ∨ b = 0x54 ∨ b = 0x62 then some (.get (.object dst))
  else if b = 0x47 ∨ b = 0x55 ∨ b = 0x63 then some (.get (.boolean dst))
  else if b = 0x48 ∨ b = 0x56 ∨ b = 0x64 then some (.get (.byte dst))
  else if b = 0x49 ∨ b = 0x57 ∨ b = 0x65 then some (.get (.char dst))
  else if b = 0x4A ∨ b = 0x58 ∨ b = 0x66 then some (.get (.short dst))
  else if b = 0x4B ∨ b = 0x59 ∨ b = 0x67 then some (.put (.int dst))
  else if b = 0x4C ∨ b = 0x5A ∨ b = 0x68 then
    some (.put (.wide (dst, .byte ((ia + 1) % 256))))
  else if b = 0x4D ∨ b = 0x5B ∨ b = 0x69 then some (.put (.object dst))
  else if b = 0x4E ∨ b = 0x5C ∨ b = 0x6A then some (.put (.boolean dst))
  else if b = 0x4F ∨ b = 0x5D ∨ b = 0x6B then some (.put (.byte dst))
  else if b = 0x50 ∨ b = 0x5E ∨ b = 0x6C then some (.put (.char dst))
  else if b = 0x51 ∨ b = 0x5F ∨ b = 0x6D then some (.put (.short dst))
  else none

/-- `decode_invocation_parameters!`: `immediate_args >> 4` registers packed
as nibbles of the argument word, except the 5th (and 9th), which sits in
the low nibble of the immediate-args byte. -/
def decodeInvocationParameters (argWord ia : Nat) : List Register :=
  (List.range (ia / 16)).map fun i =>
    if i = 4 ∨ i = 8 then .byte (ia % 16)
    else .byte (argWord >>> (i * 4) % 16)

/-- The three outcomes of the big `match`: the early `return Ok(None)`
(payload marker), the early `return Err(..)`, or an
`(instruction, length)` pair handed to the `*offset += length` epilogue. -/
inductive Step
  | payload
  | err (e : InstructionParsingError)
  | pair (i : Instruction) (length : Nat)
deriving DecidableEq, Repr

/-- The big `match opcode_byte` of
`dex_parsing/instruction/mod.rs::try_from_raw_bytecode`.  Operand word `k`
of the re-sliced buffer is `buf[offset + k]`, read without bounds checks
(a missing word is a panic, `none`).  The `0x91` arm of the source is dead
(shadowed by `0x90..=0x9A`); the trailing `_` arm is the early
`return Err(..)`. -/
def arms (buf : List Nat) (offset : Nat) (b ia : Nat) : Option Step :=
  if b = 0x00 then
    if 1 ≤ ia ∧ ia ≤ 3 then some .payload else some (.pair .nop 1)
  else if b = 0x01 then
    some (.pair (.move (splitRegisters ia).1 (splitRegisters ia).2) 1)
  else if b = 0x02 then
    match buf[offset + 1]? with
    | none => none
    | some w1 => some (.pair (.move (.byte ia) (.word w1)) 2)
  else if b = 0x03 then
    match buf[offset + 1]?, buf[offset + 2]? with
    | some w1, some w2 => some (.pair (.move (.word w1) (.word w2)) 3)
    | _, _ => none
  else if b = 0x04 then
    some (.pair (.moveWide (splitRegisters ia).1 (splitRegisters ia).2) 1)
  else if b = 0x05 then
    match buf[offset + 1]? with
    | none => none
    | some w1 => some (.pair (.moveWide (.byte ia) (.word w1)) 2)
  else if b = 0x06 then
    match buf[offset + 1]?, buf[offset + 2]? with
    | some w1, some w2 => some (.pair (.moveWide (.word w1) (.word w2)) 3)
    | _, _ => none
  else if b = 0x07 then
    some (.pair (.moveObject (splitRegisters ia).1 (splitRegisters ia).2) 1)
  else if b = 0x08 then
    match buf[offset + 1]? with
    | none => none
    | some w1 => some (.pair (.moveObject (.byte ia) (.word w1)) 2)
  else if b = 0x09 then
    match buf[offset + 1]?, buf[offset + 2]? with
    | some w1, some w2 => some (.pair (.moveObject (.word w1) (.word w2)) 3)
    | _, _ => none
  else if b = 0x0A then some (.pair (.moveResult (.byte ia)) 1)
  else if b = 0x0B then some (.pair (.moveResultWide (.byte ia)) 1)
  else if b = 0x0C then some (.pair (.moveResultObject (.byte ia)) 1)
  else if b = 0x0D then some (.pair (.moveException (.byte ia)) 1)
  else if b = 0x0E then some (.pair (.ret none) 1)
  else if b = 0x0F then some (.pair (.ret (some (.byte ia))) 1)
  else if b = 0x10 then some (.pair (.retWide (.byte ia)) 1)
  else if b = 0x11 then some (.pair (.retObject (.byte ia)) 1)
  else if b = 0x12 then
    -- `Register::Byte(immediate_args & 0xF0)` — the high nibble is NOT
    -- shifted down; `(immediate_args & 0x0F) as i8` is in `0..=15`.
    some (.pair (.const (.byte (ia &&& 0xF0)) (.signed8 (ia % 16))) 1)
  else if b = 0x13 then
    match buf[offset + 1]? with
    | none => none
    | some w1 =>
      some (.pair (.const (.byte ia) (.signed16 (sext16 w1))) 2)
  else if b = 0x14 then
    match buf[offset + 1]?, buf[offset + 2]? with
    | some w1, some w2 =>
      some (.pair (.const (.byte ia) (.arbitrary32 (concatWords2 w1 w2))) 3)
    | _, _ => none
  else if b = 0x15 then
    match buf[offset + 1]? with
    | none => none
    | some w1 =>
      some (.pair (.const (.byte ia) (.signed16 (sext16 w1))) 2)
  else if b = 0x16 then
    match buf[offset + 1]? with
    | none => none
    | some w1 =>
      some (.pair (.const (.byte ia) (.signed16 (sext16 w1))) 2)
  else if b = 0x17 then
    match buf[offset + 1]?, buf[offset + 2]? with
    | some w1, some w2 =>
      some (.pair (.const (.byte ia)
        (.signed32 (sext32 (concatWords2 w1 w2)))) 3)
    | _, _ => none
  else if b = 0x18 then
    match buf[offset + 1]?, buf[offset + 2]?, buf[offset + 3]?,
        buf[offset + 4]? with
    | some w1, some w2, some w3, some w4 =>
      some (.pair (.const (.byte ia)
        (.arbitrary64 (concatWords4 w1 w2 w3 w4))) 5)
    | _, _, _, _ => none
  else if b = 0x19 then
    match buf[offset + 1]? with
    | none => none
    | some w1 =>
      some (.pair (.const (.byte ia) (.signed16 (sext16 w1))) 2)
  else if b = 0x1A then
    match buf[offset + 1]? with
    | none => none
    | some w1 => some (.pair (.constString (.byte ia) (.u16 w1)) 2)
  else if b = 0x1B then
    match buf[offset + 1]?, buf[offset + 2]? with
    | some w1, some w2 =>
      some (.pair (.constString (.byte ia) (.u32 (concatWords2 w1 w2))) 3)
    | _, _ => none
  else if b = 0x1C then
    match buf[offset + 1]? with
    | none => none
    | some w1 => some (.pair (.constClass (.byte ia) (.u16 w1)) 2)
  else if b = 0x1D then some (.pair (.monitorEnter (.byte ia)) 1)
  else if b = 0x1E then some (.pair (.monitorExit (.byte ia)) 1)
  else if b = 0x1F then
    match buf[offset + 1]? with
    | none => none
    | some w1 => some (.pair (.checkCast (.byte ia) (.u16 w1)) 2)
  else if b = 0x20 then
    match buf[offset + 1]? with
    | none => none
    | some w1 =>
      some (.pair (.instanceOf (splitRegisters ia).1 (splitRegisters ia).2
        (.u16 w1)) 2)
  else if b = 0x21 then
    some (.pair (.arrayLength (splitRegisters ia).1 (splitRegisters ia).2) 1)
  else if b = 0x22 then
    match buf[offset + 1]? with
    | none => none
    | some w1 => some (.pair (.newInstance (.byte ia) (.u16 w1)) 2)
  else if b = 0x23 then
    match buf[offset + 1]? with
    | none => none
    | some w1 =>
      some (.pair (.newArray (splitRegisters ia).1 (splitRegisters ia).2
        (.u16 w1)) 2)
  else if b = 0x24 then
    match buf[offset + 1]?, buf[offset + 2]? with
    | some w1, some w2 =>
      some (.pair (.filledNewArray (.u16 w1)
        (decodeInvocationParameters w2 ia)) 3)
    | _, _ => none
  else if b = 0x25 then
    match buf[offset + 1]?, buf[offset + 2]? with
    | some w1, some w2 =>
      -- `(vc..=vc + immediate_args as u16).take(immediate_args as usize)`
      some (.pair (.filledNewArray (.u16 w1)
        ((List.range ia).map fun k => Register.word (w2 + k))) 3)
    | _, _ => none
  else if b = 0x26 then
    match buf[offset + 1]?, buf[offset + 2]? with
    | some w1, some w2 =>
      some (.pair (.fillArrayData (.byte ia)
        (.i32 (sext32 (concatWords2 w1 w2)))) 3)
    | _, _ => none
  else if b = 0x27 then some (.pair (.throw (.byte ia)) 1)
  else if b = 0x28 then some (.pair (.goto (.i8 (sext8 ia))) 1)
  else if b = 0x29 then
    match buf[offset + 1]? with
    | none => none
    | some w1 => some (.pair (.goto (.i16 (sext16 w1))) 2)
  else if b = 0x2A then
    match buf[offset + 1]?, buf[offset + 2]? with
    | some w1, some w2 =>
      some (.pair (.goto (.i32 (sext32 (concatWords2 w1 w2)))) 3)
    | _, _ => none
  else if b = 0x2B then
    match buf[offset + 1]?, buf[offset + 2]? with
    | some w1, some w2 =>
      some (.pair (.switch (.packed (.byte ia)
        (.i32 (sext32 (concatWords2 w1 w2))))) 3)
    | _, _ => none
  else if b = 0x2C then
    match buf[offset + 1]?, buf[offset + 2]? with
    | some w1, some w2 =>
      some (.pair (.switch (.sparse (.byte ia)
        (.i32 (sext32 (concatWords2 w1 w2))))) 3)
    | _, _ => none
  else if 0x2D ≤ b ∧ b ≤ 0x31 then
    match buf[offset + 1]? with
    | none => none
    | some w1 =>
      some (.pair (.cmp (.byte ia) (.byte (opcodeByte w1))
        (.byte (immArgs w1))) 2)
  else if 0x32 ≤ b ∧ b ≤ 0x3D then
    -- the twelve `if-test`/`if-testz` arms; `raw_bytecode[1] as i8`
    -- truncates the word to its low byte before reinterpreting.
    match buf[offset + 1]? with
    | none => none
    | some w1 =>
      let va := (splitRegisters ia).1
      let vb := (splitRegisters ia).2
      let off := BranchOffset.i8 (sext8 (w1 % 256))
      let k : Option IfKind :=
        if b = 0x32 then some (.test (.eq va vb) off)
        else if b = 0x33 then some (.test (.ne va vb) off)
        else if b = 0x34 then some (.test (.lt va vb) off)
        else if b = 0x35 then some (.test (.ge va vb) off)
        else if b = 0x36 then some (.test (.gt va vb) off)
        else if b = 0x37 then some (.test (.le va vb) off)
        else if b = 0x38 then some (.testz (.eq va vb) off)
        else if b = 0x39 then some (.testz (.ne va vb) off)
        else if b = 0x3A then some (.testz (.lt va vb) off)
        else if b = 0x3B then some (.testz (.ge va vb) off)
        else if b = 0x3C then some (.testz (.gt va vb) off)
        else some (.testz (.le va vb) off)
      match k with
      | none => none
      | some kk => some (.pair (.ifOp kk) 2)
  else if 0x44 ≤ b ∧ b ≤ 0x51 then
    match buf[offset + 1]? with
    | none => none
    | some w1 =>
      match identifiableOperation b ia (.byte ia) with
      | none => none
      | some iop =>
        some (.pair (.arrayOp iop (splitRegisters w1).1
          (splitRegisters w1).2) 2)
  else if 0x52 ≤ b ∧ b ≤ 0x5F then
    match buf[offset + 1]? with
    | none => none
    | some w1 =>
      match identifiableOperation b ia (splitRegisters ia).1 with
      | none => none
      | some iop =>
        some (.pair (.instanceOp iop (splitRegisters ia).2 (.u16 w1)) 2)
  else if 0x60 ≤ b ∧ b ≤ 0x6D then
    match buf[offset + 1]? with
    | none => none
    | some w1 =>
      match identifiableOperation b ia (.byte ia) with
      | none => none
      | some iop => some (.pair (.staticOp iop (.u16 w1)) 2)
  else if 0x6E ≤ b ∧ b ≤ 0x72 then
    match buf[offset + 1]?, buf[offset + 2]? with
    | some w1, some w2 =>
      let regs := decodeInvocationParameters w2 ia
      let ivk : Option InvKind :=
        if b = 0x6E then some (.virtual (.u16 w1) regs)
        else if b = 0x6F then some (.super (.u16 w1) regs)
        else if b = 0x70 then some (.direct (.u16 w1) regs)
        else if b = 0x71 then some (.static (.u16 w1) regs)
        else if b = 0x72 then some (.interface (.u16 w1) regs)
        else none
      match ivk with
      | none => none
      | some k => some (.pair (.invokeKind k) 3)
    | _, _ => none
  else if 0x74 ≤ b ∧ b ≤ 0x78 then
    match buf[offset + 1]?, buf[offset + 2]? with
    | some w1, some w2 =>
      let regs := (List.range ia).map fun k => Register.word (w2 + k)
      let ivk : Option InvKind :=
        if b = 0x74 then some (.virtual (.u16 w1) regs)
        else if b = 0x75 then some (.super (.u16 w1) regs)
        else if b = 0x76 then some (.direct (.u16 w1) regs)
        else if b = 0x77 then some (.static (.u16 w1) regs)
        else if b = 0x78 then some (.interface (.u16 w1) regs)
        else none
      match ivk with
      | none => none
      | some k => some (.pair (.invokeKind k) 3)
    | _, _ => none
  else if b = 0x7B then
    some (.pair (.unop (.neg .int) (splitRegisters ia).1
      (splitRegisters ia).2) 1)
  else if b = 0x7C then
    some (.pair (.unop (.not .int) (splitRegisters ia).1
      (splitRegisters ia).2) 1)
  else if b = 0x7D then
    some (.pair (.unop (.neg .long) (Register.getPairs ia).1
      (Register.getPairs ia).2) 1)
  else if b = 0x7E then
    some (.pair (.unop (.not .long) (Register.getPairs ia).1
      (Register.getPairs ia).2) 1)
  else if b = 0x7F then
    some (.pair (.unop (.neg .float) (splitRegisters ia).1
      (splitRegisters ia).2) 1)
  else if b = 0x80 then
    some (.pair (.unop (.neg .double) (Register.getPairs ia).1
      (Register.getPairs ia).2) 1)
  else if b = 0x81 then
    some (.pair (.unop (.convert .int .long) (Register.getDstPair ia).1
      (Register.getDstPair ia).2) 1)
  else if b = 0x82 then
    some (.pair (.unop (.convert .int .float) (splitRegisters ia).1
      (splitRegisters ia).2) 1)
  else if b = 0x83 then
    some (.pair (.unop (.convert .int .double) (Register.getDstPair ia).1
      (Register.getDstPair ia).2) 1)
  else if b = 0x84 then
    some (.pair (.unop (.convert .long .int) (Register.getSrcPair ia).1
      (Register.getSrcPair ia).2) 1)
  else if b = 0x85 then
    some (.pair (.unop (.convert .long .float) (Register.getSrcPair ia).1
      (Register.getSrcPair ia).2) 1)
  else if b = 0x86 then
    some (.pair (.unop (.convert .long .double) (Register.getPairs ia).1
      (Register.getPairs ia).2) 1)
  else if b = 0x87 then
    some (.pair (.unop (.convert .float .int) (splitRegisters ia).1
      (splitRegisters ia).2) 1)
  else if b = 0x88 then
    some (.pair (.unop (.convert .float .long) (Register.getDstPair ia).1
      (Register.getDstPair ia).2) 1)
  else if b = 0x89 then
    some (.pair (.unop (.convert .float .double) (Register.getDstPair ia).1
      (Register.getDstPair ia).2) 1)
  else if b = 0x8A then
    some (.pair (.unop (.convert .double .int) (Register.getSrcPair ia).1
      (Register.getSrcPair ia).2) 1)
  else if b = 0x8B then
    some (.pair (.unop (.convert .double .long) (Register.getPairs ia).1
      (Register.getPairs ia).2) 1)
  else if b = 0x8C then
    some (.pair (.unop (.convert .double .float) (Register.getSrcPair ia).1
      (Register.getSrcPair ia).2) 1)
  else if b = 0x8D then
    some (.pair (.unop (.convert .int .byte) (splitRegisters ia).1
      (splitRegisters ia).2) 1)
  else if b = 0x8E then
    some (.pair (.unop (.convert .int .char) (splitRegisters ia).1
      (splitRegisters ia).2) 1)
  else if b = 0x8F then
    some (.pair (.unop (.convert .int .short) (splitRegisters ia).1
      (splitRegisters ia).2) 1)
  else if 0x90 ≤ b ∧ b ≤ 0x9A then
    let bop : Option (Primitive → Binop) :=
      if b = 0x90 then some .add
      else if b = 0x91 then some .sub
      else if b = 0x92 then some .mul
      else if b = 0x93 then some .div
      else if b = 0x94 then some .rem
      else if b = 0x95 then some .and
      else if b = 0x96 then some .or
      else if b = 0x97 then some .xor
      else if b = 0x98 then some .shl
      else if b = 0x99 then some .shr
      else if b = 0x9A then some .ushr
      else none
    match bop, buf[offset + 1]? with
    | some bc, some w1 =>
      some (.pair (.binop (bc .int) (.byte ia) (.byte (opcodeByte w1))
        (.byte (immArgs w1))) 2)
    | _, _ => none
  else some (.err ⟨b, offset⟩)

/-- `Instruction::try_from_raw_bytecode` of
`dex_parsing/instruction/mod.rs`, with the `offset: &mut usize` cursor
embedded as the second component of the returned pair: the early returns
(`FromPrimitive` failure, payload marker, the `_ => return Err(..)` arm)
leave the cursor as passed, the success path runs `*offset += length`. -/
def tryFromRawBytecode (buf : List Nat) (offset : Nat) :
    Option ((Except InstructionParsingError (Option Instruction)) × Nat) :=
  match buf[offset]? with
  | none => none
  | some w0 =>
    let b := opcodeByte w0
    let ia := immArgs w0
    if reservedByte b then some (.error ⟨b, offset⟩, offset)
    else
      match arms buf offset b ia with
      | none => none
      | some .payload => some (.ok none, offset)
      | some (.err e) => some (.error e, offset)
      | some (.pair i length) => some (.ok (some i), offset + length)

/-- The length, in 16-bit words, that the format class of opcode byte `b`
prescribes — an independent transcription of the per-arm lengths of the
big `match` (`0` for the bytes on which the decoder never produces an
instruction). -/
def dpmLength (b : Nat) : Nat :=
  if b = 0x00 ∨ b = 0x01 ∨ b = 0x04 ∨ b = 0x07 ∨
      (0x0A ≤ b ∧ b ≤ 0x12) ∨ b = 0x1D ∨ b = 0x1E ∨ b = 0x21 ∨
      b = 0x27 ∨ b = 0x28 ∨ (0x7B ≤ b ∧ b ≤ 0x8F) then 1
  else if b = 0x02 ∨ b = 0x05 ∨ b = 0x08 ∨ b = 0x13 ∨ b = 0x15 ∨
      b = 0x16 ∨ b = 0x19 ∨ b = 0x1A ∨ b = 0x1C ∨ b = 0x1F ∨ b = 0x20 ∨
      b = 0x22 ∨ b = 0x23 ∨ b = 0x29 ∨ (0x2D ≤ b ∧ b ≤ 0x31) ∨
      (0x32 ≤ b ∧ b ≤ 0x3D) ∨ (0x44 ≤ b ∧ b ≤ 0x6D) ∨
      (0x90 ≤ b ∧ b ≤ 0x9A) then 2
  else if b = 0x03 ∨ b = 0x06 ∨ b = 0x09 ∨ b = 0x14 ∨ b = 0x17 ∨
      b = 0x1B ∨ (0x24 ≤ b ∧ b ≤ 0x26) ∨ (0x2A ≤ b ∧ b ≤ 0x2C) ∨
      (0x6E ≤ b ∧ b ≤ 0x72) ∨ (0x74 ≤ b ∧ b ≤ 0x78) then 3
  else if b = 0x18 then 5
  else 0

end DPM

namespace DexParsing
/-!  Embedding of `src/dex_parsing/mod.rs`: `get_blocks` and `into_blocks`
(with the block type of the commented-out `block.old.rs` revision:
`BasicBlock { prev, instructions, succ }`, edges as container indices). -/

/-- Modelled from the spec: the `Instruction` revision consumed by
`dex_parsing/mod.rs::get_blocks` exposes `offset()` (the instruction's own
start offset) and `dest()` (an optional branch target) — accessors missing
from the `dex_parsing/instruction.rs` shipped under `src/`.  Per spec §4.2
branch immediates are signed word deltas relative to the instruction's
start offset (8-bit for `goto`, 16-bit for `goto/16` and the `if` family,
32-bit for `goto/32` and the switch payload references); `get_blocks`
consumes `dest()` as an absolute word offset, i.e. resolved as
`offset + delta` with the `i32 → usize` cast semantics of
`Instruction::jump_target`. -/
structure Instruction where
  opcode : Nat
  mIdx : Option Nat
  offset : Nat
  dest : Option Nat
deriving DecidableEq, Repr

/-- The decode step used by `get_blocks`: the length-only decoder of
`dex_parsing/instruction.rs`, extended with the spec-modelled `offset` and
`dest` fields (see `DexParsing.Instruction`).  The operand words entering
`dest` exist whenever the decoder succeeded, because its epilogue already
checked `length` against the remaining buffer. -/
def tryFromRawBytecode (buf : List Nat) (ofs : Nat) :
    Option (Except InstructionParsingError (Option (Instruction × Nat))) :=
  match DP.tryFromRawBytecode buf ofs with
  | none => none
  | some (.error e) => some (.error e)
  | some (.ok none) => some (.ok none)
  | some (.ok (some (i, length))) =>
    let b := i.opcode
    let dest : Option Nat :=
      if b = 0x28 then
        some (usizeOfI32 ((ofs : Int) + sext8 (immArgs (buf.getD ofs 0))))
      else if b = 0x29 ∨ (0x32 ≤ b ∧ b ≤ 0x3D) then
        some (usizeOfI32 ((ofs : Int) + sext16 (buf.getD (ofs + 1) 0)))
      else if 0x2A ≤ b ∧ b ≤ 0x2C then
        some (usizeOfI32 ((ofs : Int) +
          sext32 (concatWords2 (buf.getD (ofs + 1) 0) (buf.getD (ofs + 2) 0))))
      else none
    some (.ok (some (⟨b, i.mIdx, ofs, dest⟩, length)))

/-- The errors of `get_blocks`.  The source builds formatted `String`s;
the embedding keeps them structural. -/
inductive BuildErr
  | jumpOob (t : Nat)   -- "Jump target out of bounds: {t}"
  | parse (off : Nat)   -- "Error parsing instruction at offset: {off}"
  | noSrc (o : Nat)     -- "No source index {o}"
  | noDst (o : Nat)     -- "No destination index {o}"
deriving DecidableEq, Repr

/-- The switch-payload walk of `get_blocks`:
for `i in (0..size*2).step_by(2)`, read `targets[i]`, `targets[i+1]`
(a panic when out of range), resolve
`(current_offset as i32 + relative) as u32 as usize` and push one block
start and one edge per entry. -/
def walkTargets (targets : List Nat) (curOffset cbs : Nat) :
    Nat → Nat → List Nat → List (Nat × Nat) →
    Option (List Nat × List (Nat × Nat))
  | 0, _, starts, edges => some (starts, edges)
  | k + 1, i, starts, edges =>
    match targets[i]?, targets[i + 1]? with
    | some t0, some t1 =>
      let target := u32OfI32 ((curOffset : Int) +
        sext32 (concatWords2 t0 t1))
      walkTargets targets curOffset cbs k (i + 2)
        (starts ++ [target]) (edges ++ [(cbs, target)])
    | _, _ => none

/-- The linear-scan loop of `get_blocks` (phase 1): decode from offset `0`,
collecting instructions, block starts and edges.  Every successful decode
advances the offset by at least one word, so the loop runs at most
`buf.length` times and the fuel `buf.length + 1` supplied by `getBlocks`
is never exhausted. -/
def phase1 (buf : List Nat) :
    Nat → Nat → List Instruction → List Nat → List (Nat × Nat) →
    Option (Except BuildErr
      (List Instruction × List Nat × List (Nat × Nat)))
  | 0, _, _, _, _ => none
  | fuel + 1, offset, insts, starts, edges =>
    if offset < buf.length then
      match tryFromRawBytecode buf offset with
      | none => none
      | some (.error _) => some (.error (.parse offset))
      | some (.ok none) => some (.ok (insts, starts, edges))
      | some (.ok (some (inst, length))) =>
        -- `offset += length` happens before the opcode `match`, so the
        -- fallthrough edge below uses the advanced offset.
        let offset2 := offset + length
        let b := inst.opcode
        if 0x32 ≤ b ∧ b ≤ 0x3D then
          match starts.getLast?, inst.dest with
          | some cbs, some jt =>
            phase1 buf fuel offset2 (insts ++ [inst])
              (starts ++ [offset2, jt])
              (edges ++ [(cbs, offset2), (cbs, jt)])
          | _, _ => none
        else if 0x28 ≤ b ∧ b ≤ 0x2A then
          match starts.getLast?, inst.dest with
          | some cbs, some jt =>
            phase1 buf fuel offset2 (insts ++ [inst]) (starts ++ [jt])
              (edges ++ [(cbs, jt)])
          | _, _ => none
        else if b = 0x2B ∨ b = 0x2C then
          match inst.dest with
          | none => none
          | some jt =>
            if jt + 1 > buf.length then some (.error (.jumpOob jt))
            else
              match buf[jt + 1]? with
              | none => none        -- `raw_bytecode[jump_target + 1]`
              | some size =>
                match starts.getLast? with
                | none => none
                | some cbs =>
                  -- `&raw_bytecode[start..]`: a start beyond the buffer
                  -- length is a panic.
                  let start :=
                    if b = 0x2B then jt + 4 else jt + 2 + size * 2
                  if buf.length < start then none
                  else
                    match walkTargets (buf.drop start) inst.offset cbs
                        size 0 starts edges with
                    | none => none
                    | some (starts2, edges2) =>
                      phase1 buf fuel offset2 (insts ++ [inst])
                        starts2 edges2
        else phase1 buf fuel offset2 (insts ++ [inst]) starts edges
    else some (.ok (insts, starts, edges))

/-- `block.old.rs::BasicBlock` (the revision used by
`dex_parsing/mod.rs`), edges as indices into the block vector. -/
structure BasicBlock where
  prev : List Nat
  instructions : List Instruction
  succ : List Nat
deriving DecidableEq, Repr

/-- Phase 2, first loop: partition the instruction list into blocks at the
collected block starts.  `blocks.last().expect("No current block")` panics
when an instruction precedes every block start. -/
def fillBlocks :
    List Instruction → List Nat → List BasicBlock → List (Nat × Nat) →
    Option (List BasicBlock × List (Nat × Nat))
  | [], _, blocks, mapping => some (blocks, mapping)
  | inst :: rest, startsSet, blocks, mapping =>
    let step :
        List BasicBlock × List (Nat × Nat) :=
      if startsSet.contains inst.offset then
        (blocks ++ [⟨[], [], []⟩], mapping ++ [(inst.offset, blocks.length)])
      else (blocks, mapping)
    match step.1.getLast? with
    | none => none
    | some lastB =>
      fillBlocks rest startsSet
        (step.1.dropLast ++ [{ lastB with
          instructions := lastB.instructions ++ [inst] }]) step.2

/-- `index_mapping.get(..)` — offsets are pairwise distinct, so the
association-list lookup matches the `HashMap`. -/
def lookupIdx (m : List (Nat × Nat)) (k : Nat) : Option Nat :=
  (m.find? (fun p => p.1 == k)).map (·.2)

/-- Phase 2, second loop: wire each collected `(src, dst)` edge, failing
with "No source index"/"No destination index" for an offset that starts no
block. -/
def applyEdges :
    List (Nat × Nat) → List (Nat × Nat) → List BasicBlock →
    Option (Except BuildErr (List BasicBlock))
  | [], _, blocks => some (.ok blocks)
  | (src, dst) :: rest, mapping, blocks =>
    match lookupIdx mapping src with
    | none => some (.error (.noSrc src))
    | some si =>
      match lookupIdx mapping dst with
      | none => some (.error (.noDst dst))
      | some di =>
        let blocks2 :=
          modifyIdx (fun bb => { bb with succ := bb.succ ++ [di] }) blocks si
        let blocks3 :=
          modifyIdx (fun bb => { bb with prev := bb.prev ++ [si] }) blocks2 di
        applyEdges rest mapping blocks3

/-- `dex_parsing/mod.rs::get_blocks`. -/
def getBlocks (buf : List Nat) :
    Option (Except BuildErr (List BasicBlock)) :=
  match phase1 buf (buf.length + 1) 0 [] [0] [] with
  | none => none
  | some (.error e) => some (.error e)
  | some (.ok (insts, starts, edges)) =>
    match fillBlocks insts starts [] [] with
    | none => none
    | some (blocks, mapping) => applyEdges edges mapping blocks

/-- `dex_parsing/mod.rs::into_blocks`, over the per-method instruction
buffers of the input: a method whose `get_blocks` errors is logged and
skipped, every other method contributes its first block. -/
def intoBlocks : List (List Nat) → Option (List BasicBlock)
  | [] => some []
  | m :: ms =>
    match getBlocks m with
    | none => none
    | some (.error _) => intoBlocks ms
    | some (.ok bs) =>
      match bs.head? with
      | none => intoBlocks ms
      | some b =>
        match intoBlocks ms with
        | none => none
        | some acc => some (b :: acc)

end DexParsing

/-!  ## Theorems -/

/-- Claim C1, counterexample.  The claim says `decode` either fails with a
`DecodeError` or returns an in-bounds instruction — never reading out of
bounds or panicking.  For the decoder of `src/instruction.rs` this is
false: opcode byte `0x18` (`const-wide`) at offset `0` of the one-word
buffer `[0x0018]` makes the decoder read the four operand words
`raw_bytecode[1..=4]` with no bounds check, an out-of-bounds panic
(embedded as `none`), not a `DecodeError`. -/
theorem c1_counterexample :
    IR.tryFromRawBytecode IR.stubPool [0x18] 0 = none := by rfl

/-- Claim C2, counterexample.  `DexControlFlowGraph::get_blocks`
(`src/graph.rs`, line 88) calls `.unwrap()` on the decode result, so the
decode error raised by the reserved opcode byte `0x3e` terminates the
process (embedded as `none`) instead of being returned as a structured
error value. -/
theorem c2_counterexample :
    Graph.getBlocks IR.stubPool [0x3e] = none := by rfl

/-- Claim C3, counterexample.  Building `[nop, nop, goto/32 -1]` discovers
the branch target `1` strictly inside the already-built block `A` spanning
`[0, 5)`.  The claimed split does not happen: afterwards `A` still holds
all three instructions (including the tail from offset `1` on), and the
new successor block at offset `1` holds no instructions at all instead of
the tail `[nop@1, goto@2]`. -/
theorem c3_counterexample :
    Graph.getBlocks IR.stubPool [0, 0, 0x2a, 0xffff, 0xffff] =
      some [⟨0, false, [], [⟨0, 0, [], 1⟩, ⟨0, 1, [], 1⟩,
                            ⟨0x2a, 2, [.branchTarget (-1)], 3⟩], [1]⟩,
            ⟨1, false, [0], [], []⟩] ∧
    ([] : List IR.Instruction) ≠
      [⟨0, 1, [], 1⟩, ⟨0x2a, 2, [.branchTarget (-1)], 3⟩] := by
  exact ⟨by rfl, by decide⟩

/-- Claim C4, evaluation at the failing input.  The one-word goto
(opcode byte `0x28`) at offset `2` with immediate byte `B = 0xFF` (word
`0xFF28`) decodes to `BranchTarget(255)` — `immediate_args as i32`
zero-extends the `u8` — and resolves to `2 + 255 = 257`.  The claim
(and the documented format) requires `2 + sign_extend(0xFF) = 2 - 1 = 1`. -/
theorem c4_code_eval :
    IR.tryFromRawBytecode IR.stubPool [14, 14, 0xff28] 2 =
      some (.ok (some ⟨0x28, 2, [.branchTarget 255], 1⟩)) ∧
    IR.Instruction.jumpTarget ⟨0x28, 2, [.branchTarget 255], 1⟩ =
      some 257 ∧
    sext8 0xff = -1 := by
  exact ⟨by rfl, by rfl, by decide⟩

/-- Claim C5, counterexample.  Building `[nop, if-eqz +4, ret, nop, ret]`
(branch at offset `1`, fallthrough offset `3`, target `5`): the builder
creates the second successor block at the branch instruction's OWN offset
`1` — not at the fallthrough offset `3`, where no block exists at all —
moves the branch into it (the current block's last instruction becomes the
return scanned at offset `3`, not the branch), and never enqueues the
branch target `5`, whose block stays empty. -/
theorem c5_counterexample :
    Graph.getBlocks IR.stubPool [0, 0x38, 4, 14, 0, 14] =
      some [⟨0, false, [], [⟨0, 0, [], 1⟩, ⟨14, 3, [.packedRegister 0], 1⟩],
              [1, 2]⟩,
            ⟨5, false, [0], [], []⟩,
            ⟨1, false, [0],
              [⟨0x38, 1, [.packedRegister 0, .branchTarget 4], 2⟩], []⟩] ∧
    (∀ b ∈ [(0 : Nat), 5, 1], b ≠ 3) := by
  exact ⟨by rfl, by decide⟩

/-- Claim C6, counterexample.  `get_blocks` receives no exception-range
list at all, yet building `[move-exception v0, return-void]` marks the
block at offset `0` as an exception entry, because
`BlockContainer::get_block_at_offset` derives the flag from the bytecode
word at the block's start offset (`raw_bytecode[offset] == 0x0D`) — the
claim requires the flag to be `false` here (no supplied range starts at
`0`) and to not depend on the bytecode word. -/
theorem c6_counterexample :
    Graph.getBlocks IR.stubPool [0x0d, 14] =
      some [⟨0, true, [], [⟨0x0d, 0, [.packedRegister 0], 1⟩,
                           ⟨14, 1, [.packedRegister 0], 1⟩], []⟩] := by rfl

/-- Claim C7, counterexample.  Decoding `const-wide` (`0x18`) over the
operand words `w1..w4 = 1, 0, 0, 0` yields the immediate `2^32`, not the
claimed `w1 | (w2 << 16) | (w3 << 32) | (w4 << 48) = 1`: the
`concat_words!` macro places `w3` in the low word and `w1` at bit 32. -/
theorem c7_counterexample :
    IR.tryFromRawBytecode IR.stubPool [0x18, 1, 0, 0, 0] 0 =
      some (.ok (some ⟨0x18, 0,
        [.packedRegister 0, .immediateSigned64 4294967296], 5⟩)) ∧
    (4294967296 : Nat) ≠ 1 := by
  exact ⟨by rfl, by decide⟩

/-- Claim C8, counterexample.  The feature extractor is not total: on a
block with zero instructions, `block.instructions().last().unwrap()`
panics (embedded as `none`) instead of returning a `BlockFeatures` value
with zero ratios. -/
theorem c8_counterexample :
    Feat.fromBlock ⟨0, false, [], [], []⟩ = none := by rfl

/-- Claim C9, counterexample.  The build of
`[return-void, goto/32 -1, payload..]` completes without error, yet the
entry block (the first block, start offset `0`) has the predecessor `1`:
the goto/32 at offset `1` resolves to absolute target `0` and
`get_blocks` happily adds the edge back into the entry block.  The claimed
no-predecessor property is not verified by construction. -/
theorem c9_counterexample :
    Graph.getBlocks IR.stubPool [14, 0x2a, 0xffff, 0xffff] =
      some [⟨0, false, [1], [⟨14, 0, [.packedRegister 0], 1⟩], []⟩,
            ⟨1, false, [], [⟨0x2a, 1, [.branchTarget (-1)], 3⟩], [0]⟩] ∧
    ([1] : List Nat) ≠ [] := by
  exact ⟨by rfl, by decide⟩

end Dexompiler

namespace Dexompiler
/-- Claim C8 (amended): the block feature extractor has no failure path on
any block with at least one instruction — it returns a `BlockFeatures`
value for every such block; it panics (only) on a block with zero
instructions, where the source unwraps `instructions().last()`
(see `c8_counterexample`). -/
theorem c8_amended (b : Graph.BasicBlock) (h : b.instructions ≠ []) :
    ∃ f, Feat.fromBlock b = some f := by
  unfold Feat.fromBlock
  rcases hl : b.instructions.getLast? with _ | lastI
  · exact absurd (List.getLast?_eq_none_iff.mp hl) h
  · exact ⟨_, rfl⟩

/-- Witness for `c8_amended` at a one-instruction block. -/
theorem c8_amended_witness :
    (([⟨14, 0, [.packedRegister 0], 1⟩] : List IR.Instruction) ≠ []) ∧
    ∃ f, Feat.fromBlock
      ⟨0, false, [], [⟨14, 0, [.packedRegister 0], 1⟩], []⟩ = some f :=
  ⟨by decide, c8_amended ⟨0, false, [], [⟨14, 0, [.packedRegister 0], 1⟩], []⟩
    (by decide)⟩

/-- Claim C7 (amended): every 32-bit immediate (`const`/`const-wide/32`,
opcode bytes `0x14`/`0x17`) equals `w1 | (w2 << 16)` as claimed; but the
5-word `const-wide` (`0x18`) immediate equals
`w3 | (w4 << 16) | (w1 << 32) | (w2 << 48)` — the four operand words are
NOT concatenated in the order they follow the opcode word: the macro swaps
the two 32-bit halves. -/
theorem c7_amended (dex : IR.DexPool) (buf : List Nat)
    (ofs w0 w1 w2 w3 w4 : Nat)
    (h0 : buf[ofs]? = some w0)
    (h1 : buf[ofs + 1]? = some w1) (h2 : buf[ofs + 2]? = some w2)
    (hw1 : w1 < 2 ^ 16) (hw3 : w3 < 2 ^ 16) (hw4 : w4 < 2 ^ 16) :
    (opcodeByte w0 = 0x18 →
      buf[ofs + 3]? = some w3 → buf[ofs + 4]? = some w4 →
      IR.tryFromRawBytecode dex buf ofs = some (.ok (some ⟨0x18, ofs,
        [.packedRegister (immArgs w0),
         .immediateSigned64
           (w3 + w4 * 2 ^ 16 + w1 * 2 ^ 32 + w2 * 2 ^ 48)], 5⟩))) ∧
    (opcodeByte w0 = 0x14 ∨ opcodeByte w0 = 0x17 →
      IR.tryFromRawBytecode dex buf ofs = some (.ok (some ⟨opcodeByte w0,
        ofs, [.packedRegister (immArgs w0),
         .immediateSigned32 (w1 + w2 * 2 ^ 16)], 3⟩))) := by
  constructor
  · intro hb h3 h4
    unfold IR.tryFromRawBytecode
    rw [h0]
    simp only [hb, h1, h2, h3, h4, reservedByte]
    norm_num [concatWords4]
    omega
  · intro hb
    unfold IR.tryFromRawBytecode
    rw [h0]
    rcases hb with hb | hb <;>
      simp only [hb, h1, h2, reservedByte] <;>
      norm_num [concatWords2] <;>
      omega

/-- Witness for `c7_amended`: both parts at concrete buffers. -/
theorem c7_amended_witness :
    IR.tryFromRawBytecode IR.stubPool [0x18, 5, 6, 7, 8] 0 =
      some (.ok (some ⟨0x18, 0, [.packedRegister 0,
        .immediateSigned64 (7 + 8 * 2 ^ 16 + 5 * 2 ^ 32 + 6 * 2 ^ 48)],
        5⟩)) ∧
    IR.tryFromRawBytecode IR.stubPool [0x14, 5, 6] 0 =
      some (.ok (some ⟨0x14, 0, [.packedRegister 0,
        .immediateSigned32 (5 + 6 * 2 ^ 16)], 3⟩)) :=
  ⟨(c7_amended IR.stubPool [0x18, 5, 6, 7, 8] 0 0x18 5 6 7 8 rfl rfl rfl
      (by decide) (by decide) (by decide)).1 (by decide) rfl rfl,
   (c7_amended IR.stubPool [0x14, 5, 6] 0 0x14 5 6 0 0 rfl rfl rfl
      (by decide) (by decide) (by decide)).2 (Or.inl (by decide))⟩

set_option maxHeartbeats 2000000 in
/-- Claim C1 (amended): the claim holds for the decoder of
`src/dex_parsing/instruction.rs` — for every in-bounds cursor it either
fails with `InstructionParsingError { byte, offset }` carrying the opcode
byte and the cursor offset (in particular whenever the format class needs
more words than remain), signals a payload marker (`Ok(None)`), or returns
an instruction with `1 ≤ length` and `offset + length ≤ buffer.len()`,
and never reads out of bounds.  (The decoder of `src/instruction.rs` does
NOT satisfy the claim — see `c1_counterexample`.) -/
theorem c1_amended (buf : List Nat) (ofs : Nat) (h : ofs < buf.length) :
    (∃ w, buf[ofs]? = some w ∧
      DP.tryFromRawBytecode buf ofs = some (.error ⟨opcodeByte w, ofs⟩)) ∨
    DP.tryFromRawBytecode buf ofs = some (.ok none) ∨
    ∃ i L, DP.tryFromRawBytecode buf ofs = some (.ok (some (i, L))) ∧
      1 ≤ L ∧ ofs + L ≤ buf.length := by
  have hw : buf[ofs]? = some buf[ofs] := List.getElem?_eq_getElem h
  have harms : ∀ b ia res,
      DP.lengthArms buf ofs b ia (buf.length - ofs) = res →
      res = some (.error ⟨b, ofs⟩) ∨ res = some (.ok none) ∨
      ∃ L m, res = some (.ok (some (L, m))) ∧ 1 ≤ L := by
    intro b ia res hres
    unfold DP.lengthArms at hres
    by_cases c0 : b = 0x0
    · rw [if_pos c0] at hres
      by_cases cp : 1 ≤ ia ∧ ia ≤ 3
      · rw [if_pos cp] at hres
        exact Or.inr (Or.inl hres.symm)
      · rw [if_neg cp] at hres
        exact Or.inr (Or.inr ⟨_, _, hres.symm, by omega⟩)
    rw [if_neg c0] at hres
    by_cases c1 : b = 0x01 ∨ b = 0x04 ∨ b = 0x07 ∨ (0x0A ≤ b ∧ b ≤ 0x12) ∨
        b = 0x1D ∨ b = 0x1E ∨ b = 0x21 ∨ b = 0x27 ∨
        (0x7B ≤ b ∧ b ≤ 0x8F) ∨ (0xB0 ≤ b ∧ b ≤ 0xCF)
    · rw [if_pos c1] at hres
      exact Or.inr (Or.inr ⟨_, _, hres.symm, by omega⟩)
    rw [if_neg c1] at hres
    by_cases c2 : b = 0x02 ∨ b = 0x05 ∨ b = 0x08 ∨ b = 0x13 ∨ b = 0x15 ∨
        b = 0x16 ∨ b = 0x19 ∨ b = 0x1A ∨ b = 0x1C ∨ b = 0x1F ∨
        b = 0x20 ∨ b = 0x22 ∨ b = 0x23 ∨ (0x2D ≤ b ∧ b ≤ 0x31) ∨
        (0x44 ≤ b ∧ b ≤ 0x6D) ∨ (0x90 ≤ b ∧ b ≤ 0xAF) ∨
        (0xD0 ≤ b ∧ b ≤ 0xE2) ∨ b = 0xFE ∨ b = 0xFF
    · rw [if_pos c2] at hres
      exact Or.inr (Or.inr ⟨_, _, hres.symm, by omega⟩)
    rw [if_neg c2] at hres
    by_cases c3 : b = 0x03 ∨ b = 0x06 ∨ b = 0x09 ∨ b = 0x14 ∨ b = 0x17 ∨
        b = 0x1B ∨ (0x24 ≤ b ∧ b ≤ 0x26) ∨ b = 0xFC ∨ b = 0xFD
    · rw [if_pos c3] at hres
      exact Or.inr (Or.inr ⟨_, _, hres.symm, by omega⟩)
    rw [if_neg c3] at hres
    by_cases c4 : (0x6E ≤ b ∧ b ≤ 0x72) ∨ (0x74 ≤ b ∧ b ≤ 0x78)
    · rw [if_pos c4] at hres
      by_cases cr : buf.length - ofs < 3
      · rw [if_pos cr] at hres
        exact Or.inl hres.symm
      · rw [if_neg cr] at hres
        rw [List.getElem?_eq_getElem
          (by omega : ofs + 2 < buf.length)] at hres
        exact Or.inr (Or.inr ⟨_, _, hres.symm, by omega⟩)
    rw [if_neg c4] at hres
    by_cases c5 : b = 0xFA ∨ b = 0xFB
    · rw [if_pos c5] at hres
      by_cases cr : buf.length - ofs < 4
      · rw [if_pos cr] at hres
        exact Or.inl hres.symm
      · rw [if_neg cr] at hres
        rw [List.getElem?_eq_getElem
          (by omega : ofs + 2 < buf.length)] at hres
        exact Or.inr (Or.inr ⟨_, _, hres.symm, by omega⟩)
    rw [if_neg c5] at hres
    by_cases c6 : b = 0x18
    · rw [if_pos c6] at hres
      exact Or.inr (Or.inr ⟨_, _, hres.symm, by omega⟩)
    rw [if_neg c6] at hres
    by_cases c7 : b = 0x28
    · rw [if_pos c7] at hres
      exact Or.inr (Or.inr ⟨_, _, hres.symm, by omega⟩)
    rw [if_neg c7] at hres
    by_cases c8 : b = 0x29
    · rw [if_pos c8] at hres
      exact Or.inr (Or.inr ⟨_, _, hres.symm, by omega⟩)
    rw [if_neg c8] at hres
    by_cases c9 : b = 0x2A
    · rw [if_pos c9] at hres
      exact Or.inr (Or.inr ⟨_, _, hres.symm, by omega⟩)
    rw [if_neg c9] at hres
    by_cases c10 : b = 0x2B ∨ b = 0x2C
    · rw [if_pos c10] at hres
      exact Or.inr (Or.inr ⟨_, _, hres.symm, by omega⟩)
    rw [if_neg c10] at hres
    by_cases c11 : 0x32 ≤ b ∧ b ≤ 0x3D
    · rw [if_pos c11] at hres
      exact Or.inr (Or.inr ⟨_, _, hres.symm, by omega⟩)
    rw [if_neg c11] at hres
    exact Or.inl hres.symm
  by_cases hr : reservedByte (opcodeByte buf[ofs]) = true
  · refine Or.inl ⟨buf[ofs], hw, ?_⟩
    unfold DP.tryFromRawBytecode
    rw [hw]
    simp [hr]
  · have heq : DP.tryFromRawBytecode buf ofs =
        match DP.lengthArms buf ofs (opcodeByte buf[ofs])
            (immArgs buf[ofs]) (buf.length - ofs) with
        | none => none
        | some (.error e) => some (.error e)
        | some (.ok none) => some (.ok none)
        | some (.ok (some (length, mIdx))) =>
          if buf.length - ofs < length then
            some (.error ⟨opcodeByte buf[ofs], ofs⟩)
          else some (.ok (some (⟨opcodeByte buf[ofs], mIdx⟩, length))) := by
      unfold DP.tryFromRawBytecode
      rw [hw]
      simp [hr]
    rcases harms (opcodeByte buf[ofs]) (immArgs buf[ofs]) _ rfl with
      ha | ha | ⟨L, m, ha, hL⟩
    · exact Or.inl ⟨buf[ofs], hw, by rw [heq, ha]⟩
    · exact Or.inr (Or.inl (by rw [heq, ha]))
    · by_cases hrem : buf.length - ofs < L
      · refine Or.inl ⟨buf[ofs], hw, ?_⟩
        rw [heq, ha]
        simp [hrem]
      · refine Or.inr (Or.inr ⟨⟨opcodeByte buf[ofs], m⟩, L, ?_,
          by omega, by omega⟩)
        rw [heq, ha]
        simp [hrem]

/-- Witness for `c1_amended` at `[0x22, 648]`, offset `0`. -/
theorem c1_amended_witness :
    (0 < ([0x22, 648] : List Nat).length) ∧
    ((∃ w, ([0x22, 648] : List Nat)[0]? = some w ∧
      DP.tryFromRawBytecode [0x22, 648] 0 =
        some (.error ⟨opcodeByte w, 0⟩)) ∨
    DP.tryFromRawBytecode [0x22, 648] 0 = some (.ok none) ∨
    ∃ i L, DP.tryFromRawBytecode [0x22, 648] 0 =
        some (.ok (some (i, L))) ∧
      1 ≤ L ∧ 0 + L ≤ ([0x22, 648] : List Nat).length) :=
  ⟨by decide, c1_amended [0x22, 648] 0 (by decide)⟩

set_option maxHeartbeats 3200000 in
/-- Every `(instruction, length)` pair produced by the big `match` of
`dex_parsing/instruction/mod.rs` carries the length that `dpmLength`
prescribes for its opcode byte. -/
theorem DPM.arms_length (buf : List Nat) (offset b ia : Nat) :
    ∀ res, DPM.arms buf offset b ia = res →
    ∀ i L, res = some (.pair i L) → L = DPM.dpmLength b := by
  intro res hres i L hpair
  unfold DPM.arms at hres
  by_cases c0 : b = 0x00
  · rw [if_pos c0] at hres
    by_cases cp : 1 ≤ ia ∧ ia ≤ 3
    · rw [if_pos cp] at hres
      exact DPM.Step.noConfusion (Option.some.inj (hres.trans hpair))
    · rw [if_neg cp] at hres
      obtain ⟨-, hL⟩ :=
        DPM.Step.pair.inj (Option.some.inj (hres.trans hpair))
      subst c0
      rw [← hL]
      decide
  rw [if_neg c0] at hres
  by_cases c1 : b = 0x01
  · rw [if_pos c1] at hres
    obtain ⟨-, hL⟩ :=
      DPM.Step.pair.inj (Option.some.inj (hres.trans hpair))
    subst c1
    rw [← hL]
    decide
  rw [if_neg c1] at hres
  by_cases c2 : b = 0x02
  · rw [if_pos c2] at hres
    rcases h1 : buf[offset + 1]? with _ | w1 <;> rw [h1] at hres
    · exact Option.noConfusion (hres.trans hpair)
    · obtain ⟨-, hL⟩ :=
        DPM.Step.pair.inj (Option.some.inj (hres.trans hpair))
      subst c2
      rw [← hL]
      decide
  rw [if_neg c2] at hres
  by_cases c3 : b = 0x03
  · rw [if_pos c3] at hres
    rcases h1 : buf[offset + 1]? with _ | w1 <;> rw [h1] at hres
    · exact Option.noConfusion (hres.trans hpair)
    · rcases h2 : buf[offset + 2]? with _ | w2 <;> rw [h2] at hres
      · exact Option.noConfusion (hres.trans hpair)
      · obtain ⟨-, hL⟩ :=
          DPM.Step.pair.inj (Option.some.inj (hres.trans hpair))
        subst c3
        rw [← hL]
        decide
  rw [if_neg c3] at hres
  by_cases c4 : b = 0x04
  · rw [if_pos c4] at hres
    obtain ⟨-, hL⟩ :=
      DPM.Step.pair.inj (Option.some.inj (hres.trans hpair))
    subst c4
    rw [← hL]
    decide
  rw [if_neg c4] at hres
  by_cases c5 : b = 0x05
  · rw [if_pos c5] at hres
    rcases h1 : buf[offset + 1]? with _ | w1 <;> rw [h1] at hres
    · exact Option.noConfusion (hres.trans hpair)
    · obtain ⟨-, hL⟩ :=
        DPM.Step.pair.inj (Option.some.inj (hres.trans hpair))
      subst c5
      rw [← hL]
      decide
  rw [if_neg c5] at hres
  by_cases c6 : b = 0x06
  · rw [if_pos c6] at hres
    rcases h1 : buf[offset + 1]? with _ | w1 <;> rw [h1] at hres
    · exact Option.noConfusion (hres.trans hpair)
    · rcases h2 : buf[offset + 2]? with _ | w2 <;> rw [h2] at hres
      · exact Option.noConfusion (hres.trans hpair)
      · obtain ⟨-, hL⟩ :=
          DPM.Step.pair.inj (Option.some.inj (hres.trans hpair))
        subst c6
        rw [← hL]
        decide
  rw [if_neg c6] at hres
  by_cases c7 : b = 0x07
  · rw [if_pos c7] at hres
    obtain ⟨-, hL⟩ :=
      DPM.Step.pair.inj (Option.some.inj (hres.trans hpair))
    subst c7
    rw [← hL]
    decide
  rw [if_neg c7] at hres
  by_cases c8 : b = 0x08
  · rw [if_pos c8] at hres
    rcases h1 : buf[offset + 1]? with _ | w1 <;> rw [h1] at hres
    · exact Option.noConfusion (hres.trans hpair)
    · obtain ⟨-, hL⟩ :=
        DPM.Step.pair.inj (Option.some.inj (hres.trans hpair))
      subst c8
      rw [← hL]
      decide
  rw [if_neg c8] at hres
  by_cases c9 : b = 0x09
  · rw [if_pos c9] at hres
    rcases h1 : buf[offset + 1]? with _ | w1 <;> rw [h1] at hres
    · exact Option.noConfusion (hres.trans hpair)
    · rcases h2 : buf[offset + 2]? with _ | w2 <;> rw [h2] at hres
      · exact Option.noConfusion (hres.trans hpair)
      · obtain ⟨-, hL⟩ :=
          DPM.Step.pair.inj (Option.some.inj (hres.trans hpair))
        subst c9
        rw [← hL]
        decide
  rw [if_neg c9] at hres
  by_cases c10 : b = 0x0A
  · rw [if_pos c10] at hres
    obtain ⟨-, hL⟩ :=
      DPM.Step.pair.inj (Option.some.inj (hres.trans hpair))
    subst c10
    rw [← hL]
    decide
  rw [if_neg c10] at hres
  by_cases c11 : b = 0x0B
  · rw [if_pos c11] at hres
    obtain ⟨-, hL⟩ :=
      DPM.Step.pair.inj (Option.some.inj (hres.trans hpair))
    subst c11
    rw [← hL]
    decide
  rw [if_neg c11] at hres
  by_cases c12 : b = 0x0C
  · rw [if_pos c12] at hres
    obtain ⟨-, hL⟩ :=
      DPM.Step.pair.inj (Option.some.inj (hres.trans hpair))
    subst c12
    rw [← hL]
    decide
  rw [if_neg c12] at hres
  by_cases c13 : b = 0x0D
  · rw [if_pos c13] at hres
    obtain ⟨-, hL⟩ :=
      DPM.Step.pair.inj (Option.some.inj (hres.trans hpair))
    subst c13
    rw [← hL]
    decide
  rw [if_neg c13] at hres
  by_cases c14 : b = 0x0E
  · rw [if_pos c14] at hres
    obtain ⟨-, hL⟩ :=
      DPM.Step.pair.inj (Option.some.inj (hres.trans hpair))
    subst c14
    rw [← hL]
    decide
  rw [if_neg c14] at hres
  by_cases c15 : b = 0x0F
  · rw [if_pos c15] at hres
    obtain ⟨-, hL⟩ :=
      DPM.Step.pair.inj (Option.some.inj (hres.trans hpair))
    subst c15
    rw [← hL]
    decide
  rw [if_neg c15] at hres
  by_cases c16 : b = 0x10
  · rw [if_pos c16] at hres
    obtain ⟨-, hL⟩ :=
      DPM.Step.pair.inj (Option.some.inj (hres.trans hpair))
    subst c16
    rw [← hL]
    decide
  rw [if_neg c16] at hres
  by_cases c17 : b = 0x11
  · rw [if_pos c17] at hres
    obtain ⟨-, hL⟩ :=
      DPM.Step.pair.inj (Option.some.inj (hres.trans hpair))
    subst c17
    rw [← hL]
    decide
  rw [if_neg c17] at hres
  by_cases c18 : b = 0x12
  · rw [if_pos c18] at hres
    obtain ⟨-, hL⟩ :=
      DPM.Step.pair.inj (Option.some.inj (hres.trans hpair))
    subst c18
    rw [← hL]
    decide
  rw [if_neg c18] at hres
  by_cases c19 : b = 0x13
  · rw [if_pos c19] at hres
    rcases h1 : buf[offset + 1]? with _ | w1 <;> rw [h1] at hres
    · exact Option.noConfusion (hres.trans hpair)
    · obtain ⟨-, hL⟩ :=
        DPM.Step.pair.inj (Option.some.inj (hres.trans hpair))
      subst c19
      rw [← hL]
      decide
  rw [if_neg c19] at hres
  by_cases c20 : b = 0x14
  · rw [if_pos c20] at hres
    rcases h1 : buf[offset + 1]? with _ | w1 <;> rw [h1] at hres
    · exact Option.noConfusion (hres.trans hpair)
    · rcases h2 : buf[offset + 2]? with _ | w2 <;> rw [h2] at hres
      · exact Option.noConfusion (hres.trans hpair)
      · obtain ⟨-, hL⟩ :=
          DPM.Step.pair.inj (Option.some.inj (hres.trans hpair))
        subst c20
        rw [← hL]
        decide
  rw [if_neg c20] at hres
  by_cases c21 : b = 0x15
  · rw [if_pos c21] at hres
    rcases h1 : buf[offset + 1]? with _ | w1 <;> rw [h1] at hres
    · exact Option.noConfusion (hres.trans hpair)
    · obtain ⟨-, hL⟩ :=
        DPM.Step.pair.inj (Option.some.inj (hres.trans hpair))
      subst c21
      rw [← hL]
      decide
  rw [if_neg c21] at hres
  by_cases c22 : b = 0x16
  · rw [if_pos c22] at hres
    rcases h1 : buf[offset + 1]? with _ | w1 <;> rw [h1] at hres
    · exact Option.noConfusion (hres.trans hpair)
    · obtain ⟨-, hL⟩ :=
        DPM.Step.pair.inj (Option.some.inj (hres.trans hpair))
      subst c22
      rw [← hL]
      decide
  rw [if_neg c22] at hres
  by_cases c23 : b = 0x17
  · rw [if_pos c23] at hres
    rcases h1 : buf[offset + 1]? with _ | w1 <;> rw [h1] at hres
    · exact Option.noConfusion (hres.trans hpair)
    · rcases h2 : buf[offset + 2]? with _ | w2 <;> rw [h2] at hres
      · exact Option.noConfusion (hres.trans hpair)
      · obtain ⟨-, hL⟩ :=
          DPM.Step.pair.inj (Option.some.inj (hres.trans hpair))
        subst c23
        rw [← hL]
        decide
  rw [if_neg c23] at hres
  by_cases c24 : b = 0x18
  · rw [if_pos c24] at hres
    rcases h1 : buf[offset + 1]? with _ | w1 <;> rw [h1] at hres
    · exact Option.noConfusion (hres.trans hpair)
    · rcases h2 : buf[offset + 2]? with _ | w2 <;> rw [h2] at hres
      · exact Option.noConfusion (hres.trans hpair)
      · rcases h3 : buf[offset + 3]? with _ | w3 <;> rw [h3] at hres
        · exact Option.noConfusion (hres.trans hpair)
        · rcases h4 : buf[offset + 4]? with _ | w4 <;> rw [h4] at hres
          · exact Option.noConfusion (hres.trans hpair)
          · obtain ⟨-, hL⟩ :=
              DPM.Step.pair.inj (Option.some.inj (hres.trans hpair))
            subst c24
            rw [← hL]
            decide
  rw [if_neg c24] at hres
  by_cases c25 : b = 0x19
  · rw [if_pos c25] at hres
    rcases h1 : buf[offset + 1]? with _ | w1 <;> rw [h1] at hres
    · exact Option.noConfusion (hres.trans hpair)
    · obtain ⟨-, hL⟩ :=
        DPM.Step.pair.inj (Option.some.inj (hres.trans hpair))
      subst c25
      rw [← hL]
      decide
  rw [if_neg c25] at hres
  by_cases c26 : b = 0x1A
  · rw [if_pos c26] at hres
    rcases h1 : buf[offset + 1]? with _ | w1 <;> rw [h1] at hres
    · exact Option.noConfusion (hres.trans hpair)
    · obtain ⟨-, hL⟩ :=
        DPM.Step.pair.inj (Option.some.inj (hres.trans hpair))
      subst c26
      rw [← hL]
      decide
  rw [if_neg c26] at hres
  by_cases c27 : b = 0x1B
  · rw [if_pos c27] at hres
    rcases h1 : buf[offset + 1]? with _ | w1 <;> rw [h1] at hres
    · exact Option.noConfusion (hres.trans hpair)
    · rcases h2 : buf[offset + 2]? with _ | w2 <;> rw [h2] at hres
      · exact Option.noConfusion (hres.trans hpair)
      · obtain ⟨-, hL⟩ :=
          DPM.Step.pair.inj (Option.some.inj (hres.trans hpair))
        subst c27
        rw [← hL]
        decide
  rw [if_neg c27] at hres
  by_cases c28 : b = 0x1C
  · rw [if_pos c28] at hres
    rcases h1 : buf[offset + 1]? with _ | w1 <;> rw [h1] at hres
    · exact Option.noConfusion (hres.trans hpair)
    · obtain ⟨-, hL⟩ :=
        DPM.Step.pair.inj (Option.some.inj (hres.trans hpair))
      subst c28
      rw [← hL]
      decide
  rw [if_neg c28] at hres
  by_cases c29 : b = 0x1D
  · rw [if_pos c29] at hres
    obtain ⟨-, hL⟩ :=
      DPM.Step.pair.inj (Option.some.inj (hres.trans hpair))
    subst c29
    rw [← hL]
    decide
  rw [if_neg c29] at hres
  by_cases c30 : b = 0x1E
  · rw [if_pos c30] at hres
    obtain ⟨-, hL⟩ :=
      DPM.Step.pair.inj (Option.some.inj (hres.trans hpair))
    subst c30
    rw [← hL]
    decide
  rw [if_neg c30] at hres
  by_cases c31 : b = 0x1F
  · rw [if_pos c31] at hres
    rcases h1 : buf[offset + 1]? with _ | w1 <;> rw [h1] at hres
    · exact Option.noConfusion (hres.trans hpair)
    · obtain ⟨-, hL⟩ :=
        DPM.Step.pair.inj (Option.some.inj (hres.trans hpair))
      subst c31
      rw [← hL]
      decide
  rw [if_neg c31] at hres
  by_cases c32 : b = 0x20
  · rw [if_pos c32] at hres
    rcases h1 : buf[offset + 1]? with _ | w1 <;> rw [h1] at hres
    · exact Option.noConfusion (hres.trans hpair)
    · obtain ⟨-, hL⟩ :=
        DPM.Step.pair.inj (Option.some.inj (hres.trans hpair))
      subst c32
      rw [← hL]
      decide
  rw [if_neg c32] at hres
  by_cases c33 : b = 0x21
  · rw [if_pos c33] at hres
    obtain ⟨-, hL⟩ :=
      DPM.Step.pair.inj (Option.some.inj (hres.trans hpair))
    subst c33
    rw [← hL]
    decide
  rw [if_neg c33] at hres
  by_cases c34 : b = 0x22
  · rw [if_pos c34] at hres
    rcases h1 : buf[offset + 1]? with _ | w1 <;> rw [h1] at hres
    · exact Option.noConfusion (hres.trans hpair)
    · obtain ⟨-, hL⟩ :=
        DPM.Step.pair.inj (Option.some.inj (hres.trans hpair))
      subst c34
      rw [← hL]
      decide
  rw [if_neg c34] at hres
  by_cases c35 : b = 0x23
  · rw [if_pos c35] at hres
    rcases h1 : buf[offset + 1]? with _ | w1 <;> rw [h1] at hres
    · exact Option.noConfusion (hres.trans hpair)
    · obtain ⟨-, hL⟩ :=
        DPM.Step.pair.inj (Option.some.inj (hres.trans hpair))
      subst c35
      rw [← hL]
      decide
  rw [if_neg c35] at hres
  by_cases c36 : b = 0x24
  · rw [if_pos c36] at hres
    rcases h1 : buf[offset + 1]? with _ | w1 <;> rw [h1] at hres
    · exact Option.noConfusion (hres.trans hpair)
    · rcases h2 : buf[offset + 2]? with _ | w2 <;> rw [h2] at hres
      · exact Option.noConfusion (hres.trans hpair)
      · obtain ⟨-, hL⟩ :=
          DPM.Step.pair.inj (Option.some.inj (hres.trans hpair))
        subst c36
        rw [← hL]
        decide
  rw [if_neg c36] at hres
  by_cases c37 : b = 0x25
  · rw [if_pos c37] at hres
    rcases h1 : buf[offset + 1]? with _ | w1 <;> rw [h1] at hres
    · exact Option.noConfusion (hres.trans hpair)
    · rcases h2 : buf[offset + 2]? with _ | w2 <;> rw [h2] at hres
      · exact Option.noConfusion (hres.trans hpair)
      · obtain ⟨-, hL⟩ :=
          DPM.Step.pair.inj (Option.some.inj (hres.trans hpair))
        subst c37
        rw [← hL]
        decide
  rw [if_neg c37] at hres
  by_cases c38 : b = 0x26
  · rw [if_pos c38] at hres
    rcases h1 : buf[offset + 1]? with _ | w1 <;> rw [h1] at hres
    · exact Option.noConfusion (hres.trans hpair)
    · rcases h2 : buf[offset + 2]? with _ | w2 <;> rw [h2] at hres
      · exact Option.noConfusion (hres.trans hpair)
      · obtain ⟨-, hL⟩ :=
          DPM.Step.pair.inj (Option.some.inj (hres.trans hpair))
        subst c38
        rw [← hL]
        decide
  rw [if_neg c38] at hres
  by_cases c39 : b = 0x27
  · rw [if_pos c39] at hres
    obtain ⟨-, hL⟩ :=
      DPM.Step.pair.inj (Option.some.inj (hres.trans hpair))
    subst c39
    rw [← hL]
    decide
  rw [if_neg c39] at hres
  by_cases c40 : b = 0x28
  · rw [if_pos c40] at hres
    obtain ⟨-, hL⟩ :=
      DPM.Step.pair.inj (Option.some.inj (hres.trans hpair))
    subst c40
    rw [← hL]
    decide
  rw [if_neg c40] at hres
  by_cases c41 : b = 0x29
  · rw [if_pos c41] at hres
    rcases h1 : buf[offset + 1]? with _ | w1 <;> rw [h1] at hres
    · exact Option.noConfusion (hres.trans hpair)
    · obtain ⟨-, hL⟩ :=
        DPM.Step.pair.inj (Option.some.inj (hres.trans hpair))
      subst c41
      rw [← hL]
      decide
  rw [if_neg c41] at hres
  by_cases c42 : b = 0x2A
  · rw [if_pos c42] at hres
    rcases h1 : buf[offset + 1]? with _ | w1 <;> rw [h1] at hres
    · exact Option.noConfusion (hres.trans hpair)
    · rcases h2 : buf[offset + 2]? with _ | w2 <;> rw [h2] at hres
      · exact Option.noConfusion (hres.trans hpair)
      · obtain ⟨-, hL⟩ :=
          DPM.Step.pair.inj (Option.some.inj (hres.trans hpair))
        subst c42
        rw [← hL]
        decide
  rw [if_neg c42] at hres
  by_cases c43 : b = 0x2B
  · rw [if_pos c43] at hres
    rcases h1 : buf[offset + 1]? with _ | w1 <;> rw [h1] at hres
    · exact Option.noConfusion (hres.trans hpair)
    · rcases h2 : buf[offset + 2]? with _ | w2 <;> rw [h2] at hres
      · exact Option.noConfusion (hres.trans hpair)
      · obtain ⟨-, hL⟩ :=
          DPM.Step.pair.inj (Option.some.inj (hres.trans hpair))
        subst c43
        rw [← hL]
        decide
  rw [if_neg c43] at hres
  by_cases c44 : b = 0x2C
  · rw [if_pos c44] at hres
    rcases h1 : buf[offset + 1]? with _ | w1 <;> rw [h1] at hres
    · exact Option.noConfusion (hres.trans hpair)
    · rcases h2 : buf[offset + 2]? with _ | w2 <;> rw [h2] at hres
      · exact Option.noConfusion (hres.trans hpair)
      · obtain ⟨-, hL⟩ :=
          DPM.Step.pair.inj (Option.some.inj (hres.trans hpair))
        subst c44
        rw [← hL]
        decide
  rw [if_neg c44] at hres
  by_cases c45 : 0x2D ≤ b ∧ b ≤ 0x31
  · rw [if_pos c45] at hres
    rcases h1 : buf[offset + 1]? with _ | w1 <;> rw [h1] at hres
    · exact Option.noConfusion (hres.trans hpair)
    · obtain ⟨-, hL⟩ :=
        DPM.Step.pair.inj (Option.some.inj (hres.trans hpair))
      rw [← hL]
      unfold DPM.dpmLength
      split_ifs <;> omega
  rw [if_neg c45] at hres
  by_cases c46 : 0x32 ≤ b ∧ b ≤ 0x3D
  · rw [if_pos c46] at hres
    rcases h1 : buf[offset + 1]? with _ | w1 <;> rw [h1] at hres
    · exact Option.noConfusion (hres.trans hpair)
    · dsimp only [] at hres
      by_cases d0 : b = 0x32
      · rw [if_pos d0] at hres
        obtain ⟨-, hL⟩ :=
          DPM.Step.pair.inj (Option.some.inj (hres.trans hpair))
        subst d0
        rw [← hL]
        decide
      rw [if_neg d0] at hres
      by_cases d1 : b = 0x33
      · rw [if_pos d1] at hres
        obtain ⟨-, hL⟩ :=
          DPM.Step.pair.inj (Option.some.inj (hres.trans hpair))
        subst d1
        rw [← hL]
        decide
      rw [if_neg d1] at hres
      by_cases d2 : b = 0x34
      · rw [if_pos d2] at hres
        obtain ⟨-, hL⟩ :=
          DPM.Step.pair.inj (Option.some.inj (hres.trans hpair))
        subst d2
        rw [← hL]
        decide
      rw [if_neg d2] at hres
      by_cases d3 : b = 0x35
      · rw [if_pos d3] at hres
        obtain ⟨-, hL⟩ :=
          DPM.Step.pair.inj (Option.some.inj (hres.trans hpair))
        subst d3
        rw [← hL]
        decide
      rw [if_neg d3] at hres
      by_cases d4 : b = 0x36
      · rw [if_pos d4] at hres
        obtain ⟨-, hL⟩ :=
          DPM.Step.pair.inj (Option.some.inj (hres.trans hpair))
        subst d4
        rw [← hL]
        decide
      rw [if_neg d4] at hres
      by_cases d5 : b = 0x37
      · rw [if_pos d5] at hres
        obtain ⟨-, hL⟩ :=
          DPM.Step.pair.inj (Option.some.inj (hres.trans hpair))
        subst d5
        rw [← hL]
        decide
      rw [if_neg d5] at hres
      by_cases d6 : b = 0x38
      · rw [if_pos d6] at hres
        obtain ⟨-, hL⟩ :=
          DPM.Step.pair.inj (Option.some.inj (hres.trans hpair))
        subst d6
        rw [← hL]
        decide
      rw [if_neg d6] at hres
      by_cases d7 : b = 0x39
      · rw [if_pos d7] at hres
        obtain ⟨-, hL⟩ :=
          DPM.Step.pair.inj (Option.some.inj (hres.trans hpair))
        subst d7
        rw [← hL]
        decide
      rw [if_neg d7] at hres
      by_cases d8 : b = 0x3a
      · rw [if_pos d8] at hres
        obtain ⟨-, hL⟩ :=
          DPM.Step.pair.inj (Option.some.inj (hres.trans hpair))
        subst d8
        rw [← hL]
        decide
      rw [if_neg d8] at hres
      by_cases d9 : b = 0x3b
      · rw [if_pos d9] at hres
        obtain ⟨-, hL⟩ :=
          DPM.Step.pair.inj (Option.some.inj (hres.trans hpair))
        subst d9
        rw [← hL]
        decide
      rw [if_neg d9] at hres
      by_cases d10 : b = 0x3c
      · rw [if_pos d10] at hres
        obtain ⟨-, hL⟩ :=
          DPM.Step.pair.inj (Option.some.inj (hres.trans hpair))
        subst d10
        rw [← hL]
        decide
      rw [if_neg d10] at hres
      obtain ⟨-, hL⟩ :=
        DPM.Step.pair.inj (Option.some.inj (hres.trans hpair))
      rw [← hL]
      unfold DPM.dpmLength
      split_ifs <;> omega
  rw [if_neg c46] at hres
  by_cases c47 : 0x44 ≤ b ∧ b ≤ 0x51
  · rw [if_pos c47] at hres
    rcases h1 : buf[offset + 1]? with _ | w1 <;> rw [h1] at hres
    · exact Option.noConfusion (hres.trans hpair)
    · rcases hio : DPM.identifiableOperation b ia (.byte ia) with _ | iop <;>
        rw [hio] at hres
      · exact Option.noConfusion (hres.trans hpair)
      · obtain ⟨-, hL⟩ :=
          DPM.Step.pair.inj (Option.some.inj (hres.trans hpair))
        rw [← hL]
        unfold DPM.dpmLength
        split_ifs <;> omega
  rw [if_neg c47] at hres
  by_cases c48 : 0x52 ≤ b ∧ b ≤ 0x5F
  · rw [if_pos c48] at hres
    rcases h1 : buf[offset + 1]? with _ | w1 <;> rw [h1] at hres
    · exact Option.noConfusion (hres.trans hpair)
    · rcases hio : DPM.identifiableOperation b ia (splitRegisters ia).1 with _ | iop <;>
        rw [hio] at hres
      · exact Option.noConfusion (hres.trans hpair)
      · obtain ⟨-, hL⟩ :=
          DPM.Step.pair.inj (Option.some.inj (hres.trans hpair))
        rw [← hL]
        unfold DPM.dpmLength
        split_ifs <;> omega
  rw [if_neg c48] at hres
  by_cases c49 : 0x60 ≤ b ∧ b ≤ 0x6D
  · rw [if_pos c49] at hres
    rcases h1 : buf[offset + 1]? with _ | w1 <;> rw [h1] at hres
    · exact Option.noConfusion (hres.trans hpair)
    · rcases hio : DPM.identifiableOperation b ia (.byte ia) with _ | iop <;>
        rw [hio] at hres
      · exact Option.noConfusion (hres.trans hpair)
      · obtain ⟨-, hL⟩ :=
          DPM.Step.pair.inj (Option.some.inj (hres.trans hpair))
        rw [← hL]
        unfold DPM.dpmLength
        split_ifs <;> omega
  rw [if_neg c49] at hres
  by_cases c50 : 0x6E ≤ b ∧ b ≤ 0x72
  · rw [if_pos c50] at hres
    rcases h1 : buf[offset + 1]? with _ | w1 <;> rw [h1] at hres
    · exact Option.noConfusion (hres.trans hpair)
    · rcases h2 : buf[offset + 2]? with _ | w2 <;> rw [h2] at hres
      · exact Option.noConfusion (hres.trans hpair)
      · dsimp only [] at hres
        by_cases d0 : b = 0x6e
        · rw [if_pos d0] at hres
          obtain ⟨-, hL⟩ :=
            DPM.Step.pair.inj (Option.some.inj (hres.trans hpair))
          subst d0
          rw [← hL]
          decide
        rw [if_neg d0] at hres
        by_cases d1 : b = 0x6f
        · rw [if_pos d1] at hres
          obtain ⟨-, hL⟩ :=
            DPM.Step.pair.inj (Option.some.inj (hres.trans hpair))
          subst d1
          rw [← hL]
          decide
        rw [if_neg d1] at hres
        by_cases d2 : b = 0x70
        · rw [if_pos d2] at hres
          obtain ⟨-, hL⟩ :=
            DPM.Step.pair.inj (Option.some.inj (hres.trans hpair))
          subst d2
          rw [← hL]
          decide
        rw [if_neg d2] at hres
        by_cases d3 : b = 0x71
        · rw [if_pos d3] at hres
          obtain ⟨-, hL⟩ :=
            DPM.Step.pair.inj (Option.some.inj (hres.trans hpair))
          subst d3
          rw [← hL]
          decide
        rw [if_neg d3] at hres
        by_cases d4 : b = 0x72
        · rw [if_pos d4] at hres
          obtain ⟨-, hL⟩ :=
            DPM.Step.pair.inj (Option.some.inj (hres.trans hpair))
          subst d4
          rw [← hL]
          decide
        rw [if_neg d4] at hres
        exact Option.noConfusion (hres.trans hpair)
  rw [if_neg c50] at hres
  by_cases c51 : 0x74 ≤ b ∧ b ≤ 0x78
  · rw [if_pos c51] at hres
    rcases h1 : buf[offset + 1]? with _ | w1 <;> rw [h1] at hres
    · exact Option.noConfusion (hres.trans hpair)
    · rcases h2 : buf[offset + 2]? with _ | w2 <;> rw [h2] at hres
      · exact Option.noConfusion (hres.trans hpair)
      · dsimp only [] at hres
        by_cases d0 : b = 0x74
        · rw [if_pos d0] at hres
          obtain ⟨-, hL⟩ :=
            DPM.Step.pair.inj (Option.some.inj (hres.trans hpair))
          subst d0
          rw [← hL]
          decide
        rw [if_neg d0] at hres
        by_cases d1 : b = 0x75
        · rw [if_pos d1] at hres
          obtain ⟨-, hL⟩ :=
            DPM.Step.pair.inj (Option.some.inj (hres.trans hpair))
          subst d1
          rw [← hL]
          decide
        rw [if_neg d1] at hres
        by_cases d2 : b = 0x76
        · rw [if_pos d2] at hres
          obtain ⟨-, hL⟩ :=
            DPM.Step.pair.inj (Option.some.inj (hres.trans hpair))
          subst d2
          rw [← hL]
          decide
        rw [if_neg d2] at hres
        by_cases d3 : b = 0x77
        · rw [if_pos d3] at hres
          obtain ⟨-, hL⟩ :=
            DPM.Step.pair.inj (Option.some.inj (hres.trans hpair))
          subst d3
          rw [← hL]
          decide
        rw [if_neg d3] at hres
        by_cases d4 : b = 0x78
        · rw [if_pos d4] at hres
          obtain ⟨-, hL⟩ :=
            DPM.Step.pair.inj (Option.some.inj (hres.trans hpair))
          subst d4
          rw [← hL]
          decide
        rw [if_neg d4] at hres
        exact Option.noConfusion (hres.trans hpair)
  rw [if_neg c51] at hres
  by_cases c52 : b = 0x7B
  · rw [if_pos c52] at hres
    obtain ⟨-, hL⟩ :=
      DPM.Step.pair.inj (Option.some.inj (hres.trans hpair))
    subst c52
    rw [← hL]
    decide
  rw [if_neg c52] at hres
  by_cases c53 : b = 0x7C
  · rw [if_pos c53] at hres
    obtain ⟨-, hL⟩ :=
      DPM.Step.pair.inj (Option.some.inj (hres.trans hpair))
    subst c53
    rw [← hL]
    decide
  rw [if_neg c53] at hres
  by_cases c54 : b = 0x7D
  · rw [if_pos c54] at hres
    obtain ⟨-, hL⟩ :=
      DPM.Step.pair.inj (Option.some.inj (hres.trans hpair))
    subst c54
    rw [← hL]
    decide
  rw [if_neg c54] at hres
  by_cases c55 : b = 0x7E
  · rw [if_pos c55] at hres
    obtain ⟨-, hL⟩ :=
      DPM.Step.pair.inj (Option.some.inj (hres.trans hpair))
    subst c55
    rw [← hL]
    decide
  rw [if_neg c55] at hres
  by_cases c56 : b = 0x7F
  · rw [if_pos c56] at hres
    obtain ⟨-, hL⟩ :=
      DPM.Step.pair.inj (Option.some.inj (hres.trans hpair))
    subst c56
    rw [← hL]
    decide
  rw [if_neg c56] at hres
  by_cases c57 : b = 0x80
  · rw [if_pos c57] at hres
    obtain ⟨-, hL⟩ :=
      DPM.Step.pair.inj (Option.some.inj (hres.trans hpair))
    subst c57
    rw [← hL]
    decide
  rw [if_neg c57] at hres
  by_cases c58 : b = 0x81
  · rw [if_pos c58] at hres
    obtain ⟨-, hL⟩ :=
      DPM.Step.pair.inj (Option.some.inj (hres.trans hpair))
    subst c58
    rw [← hL]
    decide
  rw [if_neg c58] at hres
  by_cases c59 : b = 0x82
  · rw [if_pos c59] at hres
    obtain ⟨-, hL⟩ :=
      DPM.Step.pair.inj (Option.some.inj (hres.trans hpair))
    subst c59
    rw [← hL]
    decide
  rw [if_neg c59] at hres
  by_cases c60 : b = 0x83
  · rw [if_pos c60] at hres
    obtain ⟨-, hL⟩ :=
      DPM.Step.pair.inj (Option.some.inj (hres.trans hpair))
    subst c60
    rw [← hL]
    decide
  rw [if_neg c60] at hres
  by_cases c61 : b = 0x84
  · rw [if_pos c61] at hres
    obtain ⟨-, hL⟩ :=
      DPM.Step.pair.inj (Option.some.inj (hres.trans hpair))
    subst c61
    rw [← hL]
    decide
  rw [if_neg c61] at hres
  by_cases c62 : b = 0x85
  · rw [if_pos c62] at hres
    obtain ⟨-, hL⟩ :=
      DPM.Step.pair.inj (Option.some.inj (hres.trans hpair))
    subst c62
    rw [← hL]
    decide
  rw [if_neg c62] at hres
  by_cases c63 : b = 0x86
  · rw [if_pos c63] at hres
    obtain ⟨-, hL⟩ :=
      DPM.Step.pair.inj (Option.some.inj (hres.trans hpair))
    subst c63
    rw [← hL]
    decide
  rw [if_neg c63] at hres
  by_cases c64 : b = 0x87
  · rw [if_pos c64] at hres
    obtain ⟨-, hL⟩ :=
      DPM.Step.pair.inj (Option.some.inj (hres.trans hpair))
    subst c64
    rw [← hL]
    decide
  rw [if_neg c64] at hres
  by_cases c65 : b = 0x88
  · rw [if_pos c65] at hres
    obtain ⟨-, hL⟩ :=
      DPM.Step.pair.inj (Option.some.inj (hres.trans hpair))
    subst c65
    rw [← hL]
    decide
  rw [if_neg c65] at hres
  by_cases c66 : b = 0x89
  · rw [if_pos c66] at hres
    obtain ⟨-, hL⟩ :=
      DPM.Step.pair.inj (Option.some.inj (hres.trans hpair))
    subst c66
    rw [← hL]
    decide
  rw [if_neg c66] at hres
  by_cases c67 : b = 0x8A
  · rw [if_pos c67] at hres
    obtain ⟨-, hL⟩ :=
      DPM.Step.pair.inj (Option.some.inj (hres.trans hpair))
    subst c67
    rw [← hL]
    decide
  rw [if_neg c67] at hres
  by_cases c68 : b = 0x8B
  · rw [if_pos c68] at hres
    obtain ⟨-, hL⟩ :=
      DPM.Step.pair.inj (Option.some.inj (hres.trans hpair))
    subst c68
    rw [← hL]
    decide
  rw [if_neg c68] at hres
  by_cases c69 : b = 0x8C
  · rw [if_pos c69] at hres
    obtain ⟨-, hL⟩ :=
      DPM.Step.pair.inj (Option.some.inj (hres.trans hpair))
    subst c69
    rw [← hL]
    decide
  rw [if_neg c69] at hres
  by_cases c70 : b = 0x8D
  · rw [if_pos c70] at hres
    obtain ⟨-, hL⟩ :=
      DPM.Step.pair.inj (Option.some.inj (hres.trans hpair))
    subst c70
    rw [← hL]
    decide
  rw [if_neg c70] at hres
  by_cases c71 : b = 0x8E
  · rw [if_pos c71] at hres
    obtain ⟨-, hL⟩ :=
      DPM.Step.pair.inj (Option.some.inj (hres.trans hpair))
    subst c71
    rw [← hL]
    decide
  rw [if_neg c71] at hres
  by_cases c72 : b = 0x8F
  · rw [if_pos c72] at hres
    obtain ⟨-, hL⟩ :=
      DPM.Step.pair.inj (Option.some.inj (hres.trans hpair))
    subst c72
    rw [← hL]
    decide
  rw [if_neg c72] at hres
  by_cases c73 : 0x90 ≤ b ∧ b ≤ 0x9A
  · rw [if_pos c73] at hres
    by_cases d0 : b = 0x90
    · rw [if_pos d0] at hres
      rcases h1 : buf[offset + 1]? with _ | w1 <;> rw [h1] at hres
      · exact Option.noConfusion (hres.trans hpair)
      · obtain ⟨-, hL⟩ :=
          DPM.Step.pair.inj (Option.some.inj (hres.trans hpair))
        subst d0
        rw [← hL]
        decide
    rw [if_neg d0] at hres
    by_cases d1 : b = 0x91
    · rw [if_pos d1] at hres
      rcases h1 : buf[offset + 1]? with _ | w1 <;> rw [h1] at hres
      · exact Option.noConfusion (hres.trans hpair)
      · obtain ⟨-, hL⟩ :=
          DPM.Step.pair.inj (Option.some.inj (hres.trans hpair))
        subst d1
        rw [← hL]
        decide
    rw [if_neg d1] at hres
    by_cases d2 : b = 0x92
    · rw [if_pos d2] at hres
      rcases h1 : buf[offset + 1]? with _ | w1 <;> rw [h1] at hres
      · exact Option.noConfusion (hres.trans hpair)
      · obtain ⟨-, hL⟩ :=
          DPM.Step.pair.inj (Option.some.inj (hres.trans hpair))
        subst d2
        rw [← hL]
        decide
    rw [if_neg d2] at hres
    by_cases d3 : b = 0x93
    · rw [if_pos d3] at hres
      rcases h1 : buf[offset + 1]? with _ | w1 <;> rw [h1] at hres
      · exact Option.noConfusion (hres.trans hpair)
      · obtain ⟨-, hL⟩ :=
          DPM.Step.pair.inj (Option.some.inj (hres.trans hpair))
        subst d3
        rw [← hL]
        decide
    rw [if_neg d3] at hres
    by_cases d4 : b = 0x94
    · rw [if_pos d4] at hres
      rcases h1 : buf[offset + 1]? with _ | w1 <;> rw [h1] at hres
      · exact Option.noConfusion (hres.trans hpair)
      · obtain ⟨-, hL⟩ :=
          DPM.Step.pair.inj (Option.some.inj (hres.trans hpair))
        subst d4
        rw [← hL]
        decide
    rw [if_neg d4] at hres
    by_cases d5 : b = 0x95
    · rw [if_pos d5] at hres
      rcases h1 : buf[offset + 1]? with _ | w1 <;> rw [h1] at hres
      · exact Option.noConfusion (hres.trans hpair)
      · obtain ⟨-, hL⟩ :=
          DPM.Step.pair.inj (Option.some.inj (hres.trans hpair))
        subst d5
        rw [← hL]
        decide
    rw [if_neg d5] at hres
    by_cases d6 : b = 0x96
    · rw [if_pos d6] at hres
      rcases h1 : buf[offset + 1]? with _ | w1 <;> rw [h1] at hres
      · exact Option.noConfusion (hres.trans hpair)
      · obtain ⟨-, hL⟩ :=
          DPM.Step.pair.inj (Option.some.inj (hres.trans hpair))
        subst d6
        rw [← hL]
        decide
    rw [if_neg d6] at hres
    by_cases d7 : b = 0x97
    · rw [if_pos d7] at hres
      rcases h1 : buf[offset + 1]? with _ | w1 <;> rw [h1] at hres
      · exact Option.noConfusion (hres.trans hpair)
      · obtain ⟨-, hL⟩ :=
          DPM.Step.pair.inj (Option.some.inj (hres.trans hpair))
        subst d7
        rw [← hL]
        decide
    rw [if_neg d7] at hres
    by_cases d8 : b = 0x98
    · rw [if_pos d8] at hres
      rcases h1 : buf[offset + 1]? with _ | w1 <;> rw [h1] at hres
      · exact Option.noConfusion (hres.trans hpair)
      · obtain ⟨-, hL⟩ :=
          DPM.Step.pair.inj (Option.some.inj (hres.trans hpair))
        subst d8
        rw [← hL]
        decide
    rw [if_neg d8] at hres
    by_cases d9 : b = 0x99
    · rw [if_pos d9] at hres
      rcases h1 : buf[offset + 1]? with _ | w1 <;> rw [h1] at hres
      · exact Option.noConfusion (hres.trans hpair)
      · obtain ⟨-, hL⟩ :=
          DPM.Step.pair.inj (Option.some.inj (hres.trans hpair))
        subst d9
        rw [← hL]
        decide
    rw [if_neg d9] at hres
    by_cases d10 : b = 0x9a
    · rw [if_pos d10] at hres
      rcases h1 : buf[offset + 1]? with _ | w1 <;> rw [h1] at hres
      · exact Option.noConfusion (hres.trans hpair)
      · obtain ⟨-, hL⟩ :=
          DPM.Step.pair.inj (Option.some.inj (hres.trans hpair))
        subst d10
        rw [← hL]
        decide
    rw [if_neg d10] at hres
    exact Option.noConfusion (hres.trans hpair)
  rw [if_neg c73] at hres
  exact DPM.Step.noConfusion (Option.some.inj (hres.trans hpair))

/-- Claim C10 (confirmed): the cursor-advancing decoder of
`dex_parsing/instruction/mod.rs` mutates its offset argument atomically
with success — whenever it returns `Err` (unknown opcode or the `_` arm)
or `Ok(None)` (payload marker) the offset is exactly the one passed in,
and whenever it returns `Ok(Some(instruction))` the offset has been
advanced by exactly the decoded instruction's length in words (the length
the format class of its opcode byte prescribes, `dpmLength`). -/
theorem c10_offset_atomicity (buf : List Nat) (ofs : Nat)
    (r : Except InstructionParsingError (Option DPM.Instruction))
    (off2 : Nat)
    (h : DPM.tryFromRawBytecode buf ofs = some (r, off2)) :
    ((∃ e, r = .error e) → off2 = ofs) ∧
    (r = .ok none → off2 = ofs) ∧
    ∀ i, r = .ok (some i) →
      ∃ w, buf[ofs]? = some w ∧
        off2 = ofs + DPM.dpmLength (opcodeByte w) := by
  unfold DPM.tryFromRawBytecode at h
  rcases hw : buf[ofs]? with _ | w
  · rw [hw] at h
    exact Option.noConfusion h
  rw [hw] at h
  dsimp only [] at h
  by_cases hr : reservedByte (opcodeByte w) = true
  · rw [if_pos hr] at h
    simp only [Option.some.injEq, Prod.mk.injEq] at h
    obtain ⟨rfl, rfl⟩ := h
    refine ⟨fun _ => rfl, fun _ => rfl, fun i hi => ?_⟩
    exact Except.noConfusion hi
  · rw [if_neg hr] at h
    rcases ha : DPM.arms buf ofs (opcodeByte w) (immArgs w) with _ | step
    · rw [ha] at h
      exact Option.noConfusion h
    rw [ha] at h
    cases step with
    | payload =>
      simp only [Option.some.injEq, Prod.mk.injEq] at h
      obtain ⟨rfl, rfl⟩ := h
      refine ⟨fun _ => rfl, fun _ => rfl, fun i hi => ?_⟩
      exact Option.noConfusion (Except.ok.inj hi)
    | err e =>
      simp only [Option.some.injEq, Prod.mk.injEq] at h
      obtain ⟨rfl, rfl⟩ := h
      refine ⟨fun _ => rfl, fun _ => rfl, fun i hi => ?_⟩
      exact Except.noConfusion hi
    | pair i0 L =>
      simp only [Option.some.injEq, Prod.mk.injEq] at h
      obtain ⟨rfl, rfl⟩ := h
      have hL := DPM.arms_length buf ofs (opcodeByte w) (immArgs w) _ ha
        i0 L rfl
      refine ⟨?_, ?_, ?_⟩
      · rintro ⟨e, hee⟩
        exact Except.noConfusion hee
      · intro hok
        exact Option.noConfusion (Except.ok.inj hok)
      · intro i hi
        exact ⟨w, rfl, by rw [hL]⟩

/-- Witness for `c10_offset_atomicity`: decoding `return-void` at offset
`0` advances the cursor to `1 = 0 + dpmLength 0x0E`. -/
theorem c10_offset_atomicity_witness :
    DPM.tryFromRawBytecode [14] 0 = some (.ok (some (.ret none)), 1) ∧
    ∃ w, ([14] : List Nat)[0]? = some w ∧
      1 = 0 + DPM.dpmLength (opcodeByte w) :=
  ⟨rfl, (c10_offset_atomicity [14] 0 (.ok (some (.ret none))) 1 rfl).2.2
    (.ret none) rfl⟩

/-- The search loop of `get_block_at_offset` finds nothing when no block
in the container has the wanted offset. -/
theorem findBlockIdx_eq_none (blocks : List Graph.BasicBlock) (j : Nat)
    (skip : Option Nat) (t : Nat)
    (h : ∀ b ∈ blocks, b.offset ≠ t) :
    Graph.findBlockIdx blocks j skip t = none := by
  induction blocks generalizing j with
  | nil => rfl
  | cons b bs ih =>
    unfold Graph.findBlockIdx
    rw [if_neg]
    · exact ih (j + 1) fun x hx => h x (List.mem_cons_of_mem _ hx)
    · rintro ⟨-, hbo⟩
      exact h b (List.mem_cons_self _ _) hbo

/-- `get_block_at_offset` on an offset no existing block starts at: a
fresh block with empty instruction, predecessor and successor lists is
appended (reading the word at the offset for the `exc_entry` flag), and
every existing block is left untouched — there is no splitting of any
kind. -/
theorem getBlockAtOffset_create (skip : Option Nat)
    (c : Graph.BlockContainer) (buf : List Nat) (t w : Nat)
    (hno : ∀ b ∈ c.blocks, b.offset ≠ t)
    (hw : buf[t]? = some w) :
    Graph.getBlockAtOffset skip c buf t =
      some ({ blocks := c.blocks ++ [⟨t, w == 0x0D, [], [], []⟩],
              offsets := t :: c.offsets }, c.blocks.length) := by
  unfold Graph.getBlockAtOffset
  rw [findBlockIdx_eq_none c.blocks 0 skip t hno, hw]

/-- Any successful `get_block_at_offset` either returns the container
unchanged or appends exactly one fresh block at the requested offset. -/
theorem getBlockAtOffset_spec (skip : Option Nat)
    (c : Graph.BlockContainer) (buf : List Nat) (t : Nat)
    (c2 : Graph.BlockContainer) (j : Nat)
    (h : Graph.getBlockAtOffset skip c buf t = some (c2, j)) :
    c2.blocks = c.blocks ∨
    ∃ w, buf[t]? = some w ∧
      c2.blocks = c.blocks ++ [⟨t, w == 0x0D, [], [], []⟩] := by
  unfold Graph.getBlockAtOffset at h
  rcases hf : Graph.findBlockIdx c.blocks 0 skip t with _ | j0 <;>
    rw [hf] at h
  · rcases hw : buf[t]? with _ | w <;> rw [hw] at h
    · exact Option.noConfusion h
    · simp only [Option.some.injEq, Prod.mk.injEq] at h
      exact Or.inr ⟨w, rfl, by rw [← h.1]⟩
  · simp only [Option.some.injEq, Prod.mk.injEq] at h
    exact Or.inl (by rw [← h.1])

/-- `modifyIdx` with a function that fixes a projection leaves the
projected list unchanged. -/
theorem map_modifyIdx {α β : Type} (g : α → β) (f : α → α)
    (hf : ∀ a, g (f a) = g a) :
    ∀ (l : List α) (i : Nat), (modifyIdx f l i).map g = l.map g := by
  intro l
  induction l with
  | nil => intro i; rfl
  | cons a as ih =>
    intro i
    cases i with
    | zero => simp [modifyIdx, hf]
    | succ k => simp [modifyIdx, ih k]

/-- `modifyIdx` with a property-preserving function preserves a property
held by every element. -/
theorem forall_mem_modifyIdx {α : Type} (P : α → Prop) (f : α → α)
    (hf : ∀ a, P a → P (f a)) :
    ∀ (l : List α) (i : Nat), (∀ a ∈ l, P a) →
      ∀ a ∈ modifyIdx f l i, P a := by
  intro l
  induction l with
  | nil => intro i _ a ha; cases ha
  | cons x xs ih =>
    intro i h a ha
    cases i with
    | zero =>
      rcases List.mem_cons.mp ha with rfl | ha
      · exact hf x (h x (List.mem_cons_self _ _))
      · exact h a (List.mem_cons_of_mem _ ha)
    | succ k =>
      rcases List.mem_cons.mp ha with rfl | ha
      · exact h a (List.mem_cons_self _ _)
      · exact ih k (fun y hy => h y (List.mem_cons_of_mem _ hy)) a ha

/-- The two facts `go_spec` tracks, for a container mutation through
`updBlock` with any of the builder's three block mutators (they all leave
`offset` and `exc_entry` untouched). -/
theorem updBlock_facts (buf : List Nat) (c : Graph.BlockContainer)
    (i : Nat) (f : Graph.BasicBlock → Graph.BasicBlock)
    (hf : ∀ b, (f b).offset = b.offset ∧ (f b).excEntry = b.excEntry) :
    (c.blocks.map Graph.BasicBlock.offset <+:
      (Graph.updBlock c i f).blocks.map Graph.BasicBlock.offset) ∧
    ((∀ b ∈ c.blocks, ∃ w, buf[b.offset]? = some w ∧
        b.excEntry = (w == 0x0D)) →
      ∀ b ∈ (Graph.updBlock c i f).blocks,
        ∃ w, buf[b.offset]? = some w ∧ b.excEntry = (w == 0x0D)) := by
  constructor
  · rw [show (Graph.updBlock c i f).blocks = modifyIdx f c.blocks i
        from rfl,
      map_modifyIdx Graph.BasicBlock.offset f (fun b => (hf b).1)]
  · intro hin
    refine forall_mem_modifyIdx _ f ?_ c.blocks i hin
    intro a ⟨w, hw, he⟩
    exact ⟨w, by rw [(hf a).1]; exact hw, by rw [(hf a).2]; exact he⟩

/-- Composition of prefix-and-invariant facts. -/
theorem stepFacts_trans {α : Type} {A B C : Prop} {l1 l2 l3 : List α}
    (h1 : l1 <+: l2 ∧ (A → B)) (h2 : l2 <+: l3 ∧ (B → C)) :
    l1 <+: l3 ∧ (A → C) :=
  ⟨h1.1.trans h2.1, fun a => h2.2 (h1.2 a)⟩

/-- The facts for a successful `get_block_at_offset`. -/
theorem getBlockAtOffset_facts (skip : Option Nat)
    (c : Graph.BlockContainer) (buf : List Nat) (t : Nat)
    (c2 : Graph.BlockContainer) (j : Nat)
    (h : Graph.getBlockAtOffset skip c buf t = some (c2, j)) :
    (c.blocks.map Graph.BasicBlock.offset <+:
      c2.blocks.map Graph.BasicBlock.offset) ∧
    ((∀ b ∈ c.blocks, ∃ w, buf[b.offset]? = some w ∧
        b.excEntry = (w == 0x0D)) →
      ∀ b ∈ c2.blocks, ∃ w, buf[b.offset]? = some w ∧
        b.excEntry = (w == 0x0D)) := by
  rcases getBlockAtOffset_spec skip c buf t c2 j h with hsame | ⟨w, hw, happ⟩
  · rw [hsame]
    exact ⟨List.prefix_refl _, fun hin => hin⟩
  · rw [happ]
    constructor
    · rw [List.map_append]
      exact List.prefix_append _ _
    · intro hin b hb
      rcases List.mem_append.mp hb with hb | hb
      · exact hin b hb
      · rw [List.mem_singleton.mp hb]
        exact ⟨w, hw, rfl⟩

/-- Master lemma about the work-list loop: a successful run only appends
blocks (the initial offsets form a prefix of the result's offsets) and
preserves the invariant "every block's `exc_entry` flag is the in-bounds
test `raw_bytecode[start_offset] == 0x0D`". -/
theorem go_spec (dex : IR.DexPool) (buf : List Nat) :
    ∀ (fuel : Nat) (wl : List Nat) (c : Graph.BlockContainer) (cur : Nat)
      (bs : List Graph.BasicBlock),
      Graph.go dex buf fuel c cur wl = some bs →
      (c.blocks.map Graph.BasicBlock.offset <+:
        bs.map Graph.BasicBlock.offset) ∧
      ((∀ b ∈ c.blocks, ∃ w, buf[b.offset]? = some w ∧
          b.excEntry = (w == 0x0D)) →
        ∀ b ∈ bs, ∃ w, buf[b.offset]? = some w ∧
          b.excEntry = (w == 0x0D)) := by
  intro fuel
  induction fuel with
  | zero => intro wl c cur bs h; exact Option.noConfusion h
  | succ n ih =>
    intro wl c cur bs h
    rcases wl with _ | ⟨o, rest⟩
    · rw [← Option.some.inj h]
      exact ⟨List.prefix_refl _, fun hin => hin⟩
    · unfold Graph.go at h
      by_cases hlen : buf.length ≤ o
      · rw [if_pos hlen] at h
        rw [← Option.some.inj h]
        exact ⟨List.prefix_refl _, fun hin => hin⟩
      · rw [if_neg hlen] at h
        by_cases hsw : c.offsets.contains o = true
        · rw [if_pos hsw] at h
          rcases hgb : Graph.getBlockAtOffset none c buf o with _ | ⟨c1, cur1⟩
          · rw [hgb] at h; exact Option.noConfusion h
          · rw [hgb] at h
            dsimp only [] at h
            have hstep := getBlockAtOffset_facts none c buf o c1 cur1 hgb
            rcases hdec : IR.tryFromRawBytecode dex buf o with _ | (e | (_ | inst))
            · rw [hdec] at h; exact Option.noConfusion h
            · rw [hdec] at h; dsimp only [] at h; exact Option.noConfusion h
            · rw [hdec] at h
              dsimp only [] at h
              exact stepFacts_trans hstep (ih rest c1 cur1 bs h)
            · rw [hdec] at h
              dsimp only [] at h
              by_cases hA : 0x32 ≤ inst.opcode ∧ inst.opcode ≤ 0x3D
              · rw [if_pos hA] at h
                rcases hjt : inst.jumpTarget with _ | jt
                · rw [hjt] at h; exact Option.noConfusion h
                · rw [hjt] at h
                  dsimp only [] at h
                  rcases hg2 : Graph.getBlockAtOffset (some cur1) c1 buf jt with
                    _ | ⟨c2, succIdx⟩
                  · rw [hg2] at h; exact Option.noConfusion h
                  · rw [hg2] at h
                    dsimp only [] at h
                    rcases hg3 : Graph.getBlockAtOffset (some cur1)
                        (Graph.updBlock (Graph.updBlock c2 cur1
                          (Graph.BasicBlock.addSucc succIdx)) succIdx
                          (Graph.BasicBlock.addPrev cur1)) buf o with _ | ⟨c4, nIdx⟩
                    · rw [hg3] at h; exact Option.noConfusion h
                    · rw [hg3] at h
                      dsimp only [] at h
                      refine stepFacts_trans hstep (stepFacts_trans
                        (getBlockAtOffset_facts _ _ _ _ _ _ hg2) (stepFacts_trans
                        (stepFacts_trans
                          (updBlock_facts buf c2 cur1
                            (Graph.BasicBlock.addSucc succIdx) (fun b => ⟨rfl, rfl⟩))
                          (updBlock_facts buf _ succIdx
                            (Graph.BasicBlock.addPrev cur1) (fun b => ⟨rfl, rfl⟩)))
                        (stepFacts_trans (getBlockAtOffset_facts _ _ _ _ _ _ hg3)
                        (stepFacts_trans (stepFacts_trans (stepFacts_trans
                          (updBlock_facts buf c4 cur1
                            (Graph.BasicBlock.addSucc nIdx) (fun b => ⟨rfl, rfl⟩))
                          (updBlock_facts buf _ nIdx
                            (Graph.BasicBlock.addPrev cur1) (fun b => ⟨rfl, rfl⟩)))
                          (updBlock_facts buf _ nIdx
                            (Graph.BasicBlock.pushInst inst) (fun b => ⟨rfl, rfl⟩)))
                        (ih _ _ cur1 bs h)))))
              · rw [if_neg hA] at h
                by_cases hB : 0x28 ≤ inst.opcode ∧ inst.opcode ≤ 0x2A
                · rw [if_pos hB] at h
                  rcases hjt : inst.jumpTarget with _ | jt
                  · rw [hjt] at h; exact Option.noConfusion h
                  · rw [hjt] at h
                    dsimp only [] at h
                    rcases hg2 : Graph.getBlockAtOffset (some cur1)
                        (Graph.updBlock c1 cur1 (Graph.BasicBlock.pushInst inst))
                        buf jt with _ | ⟨c3, succIdx⟩
                    · rw [hg2] at h; exact Option.noConfusion h
                    · rw [hg2] at h
                      dsimp only [] at h
                      refine stepFacts_trans hstep (stepFacts_trans
                        (updBlock_facts buf c1 cur1
                          (Graph.BasicBlock.pushInst inst) (fun b => ⟨rfl, rfl⟩))
                        (stepFacts_trans (getBlockAtOffset_facts _ _ _ _ _ _ hg2)
                        (stepFacts_trans (stepFacts_trans
                          (updBlock_facts buf c3 cur1
                            (Graph.BasicBlock.addSucc succIdx) (fun b => ⟨rfl, rfl⟩))
                          (updBlock_facts buf _ succIdx
                            (Graph.BasicBlock.addPrev cur1) (fun b => ⟨rfl, rfl⟩)))
                        (ih _ _ cur1 bs h))))
                · rw [if_neg hB] at h
                  by_cases hC : (0x0E ≤ inst.opcode ∧ inst.opcode ≤ 0x11) ∨
                      inst.opcode = 0x27
                  · rw [if_pos hC] at h
                    by_cases hD : o + inst.length < buf.length ∧
                        buf.getD (o + inst.length) 0 ≠ 0
                    · rw [if_pos hD] at h
                      rcases hg2 : Graph.getBlockAtOffset (some cur1)
                          (Graph.updBlock c1 cur1 (Graph.BasicBlock.pushInst inst))
                          buf (o + inst.length) with _ | ⟨c3, k⟩
                      · rw [hg2] at h; exact Option.noConfusion h
                      · rw [hg2] at h
                        dsimp only [] at h
                        exact stepFacts_trans hstep (stepFacts_trans
                          (updBlock_facts buf c1 cur1
                            (Graph.BasicBlock.pushInst inst) (fun b => ⟨rfl, rfl⟩))
                          (stepFacts_trans (getBlockAtOffset_facts _ _ _ _ _ _ hg2)
                          (ih _ _ cur1 bs h)))
                    · rw [if_neg hD] at h
                      exact stepFacts_trans hstep (stepFacts_trans
                        (updBlock_facts buf c1 cur1
                          (Graph.BasicBlock.pushInst inst) (fun b => ⟨rfl, rfl⟩))
                        (ih rest _ cur1 bs h))
                  · rw [if_neg hC] at h
                    by_cases hE : (Graph.updBlock c1 cur1
                        (Graph.BasicBlock.pushInst inst)).offsets.contains
                        (o + inst.length) = true
                    · rw [if_pos hE] at h
                      rcases hg2 : Graph.getBlockAtOffset (some cur1)
                          (Graph.updBlock c1 cur1 (Graph.BasicBlock.pushInst inst))
                          buf (o + inst.length) with _ | ⟨c3, nIdx⟩
                      · rw [hg2] at h; exact Option.noConfusion h
                      · rw [hg2] at h
                        dsimp only [] at h
                        exact stepFacts_trans hstep (stepFacts_trans
                          (updBlock_facts buf c1 cur1
                            (Graph.BasicBlock.pushInst inst) (fun b => ⟨rfl, rfl⟩))
                          (stepFacts_trans (getBlockAtOffset_facts _ _ _ _ _ _ hg2)
                          (stepFacts_trans (stepFacts_trans
                            (updBlock_facts buf c3 cur1
                              (Graph.BasicBlock.addSucc nIdx) (fun b => ⟨rfl, rfl⟩))
                            (updBlock_facts buf _ nIdx
                              (Graph.BasicBlock.addPrev cur1) (fun b => ⟨rfl, rfl⟩)))
                          (ih _ _ cur1 bs h))))
                    · rw [if_neg hE] at h
                      exact stepFacts_trans hstep (stepFacts_trans
                        (updBlock_facts buf c1 cur1
                          (Graph.BasicBlock.pushInst inst) (fun b => ⟨rfl, rfl⟩))
                        (ih _ _ cur1 bs h))
        · rw [if_neg hsw] at h
          dsimp only [] at h
          have hstep :
              (c.blocks.map Graph.BasicBlock.offset <+:
                c.blocks.map Graph.BasicBlock.offset) ∧
              ((∀ b ∈ c.blocks, ∃ w, buf[b.offset]? = some w ∧
                  b.excEntry = (w == 0x0D)) →
                ∀ b ∈ c.blocks, ∃ w, buf[b.offset]? = some w ∧
                  b.excEntry = (w == 0x0D)) :=
            ⟨List.prefix_refl _, fun hin => hin⟩
          rcases hdec : IR.tryFromRawBytecode dex buf o with _ | (e | (_ | inst))
          · rw [hdec] at h; exact Option.noConfusion h
          · rw [hdec] at h; dsimp only [] at h; exact Option.noConfusion h
          · rw [hdec] at h
            dsimp only [] at h
            exact stepFacts_trans hstep (ih rest c cur bs h)
          · rw [hdec] at h
            dsimp only [] at h
            by_cases hA : 0x32 ≤ inst.opcode ∧ inst.opcode ≤ 0x3D
            · rw [if_pos hA] at h
              rcases hjt : inst.jumpTarget with _ | jt
              · rw [hjt] at h; exact Option.noConfusion h
              · rw [hjt] at h
                dsimp only [] at h
                rcases hg2 : Graph.getBlockAtOffset (some cur) c buf jt with
                  _ | ⟨c2, succIdx⟩
                · rw [hg2] at h; exact Option.noConfusion h
                · rw [hg2] at h
                  dsimp only [] at h
                  rcases hg3 : Graph.getBlockAtOffset (some cur)
                      (Graph.updBlock (Graph.updBlock c2 cur
                        (Graph.BasicBlock.addSucc succIdx)) succIdx
                        (Graph.BasicBlock.addPrev cur)) buf o with _ | ⟨c4, nIdx⟩
                  · rw [hg3] at h; exact Option.noConfusion h
                  · rw [hg3] at h
                    dsimp only [] at h
                    refine stepFacts_trans hstep (stepFacts_trans
                      (getBlockAtOffset_facts _ _ _ _ _ _ hg2) (stepFacts_trans
                      (stepFacts_trans
                        (updBlock_facts buf c2 cur
                          (Graph.BasicBlock.addSucc succIdx) (fun b => ⟨rfl, rfl⟩))
                        (updBlock_facts buf _ succIdx
                          (Graph.BasicBlock.addPrev cur) (fun b => ⟨rfl, rfl⟩)))
                      (stepFacts_trans (getBlockAtOffset_facts _ _ _ _ _ _ hg3)
                      (stepFacts_trans (stepFacts_trans (stepFacts_trans
                        (updBlock_facts buf c4 cur
                          (Graph.BasicBlock.addSucc nIdx) (fun b => ⟨rfl, rfl⟩))
                        (updBlock_facts buf _ nIdx
                          (Graph.BasicBlock.addPrev cur) (fun b => ⟨rfl, rfl⟩)))
                        (updBlock_facts buf _ nIdx
                          (Graph.BasicBlock.pushInst inst) (fun b => ⟨rfl, rfl⟩)))
                      (ih _ _ cur bs h)))))
            · rw [if_neg hA] at h
              by_cases hB : 0x28 ≤ inst.opcode ∧ inst.opcode ≤ 0x2A
              · rw [if_pos hB] at h
                rcases hjt : inst.jumpTarget with _ | jt
                · rw [hjt] at h; exact Option.noConfusion h
                · rw [hjt] at h
                  dsimp only [] at h
                  rcases hg2 : Graph.getBlockAtOffset (some cur)
                      (Graph.updBlock c cur (Graph.BasicBlock.pushInst inst))
                      buf jt with _ | ⟨c3, succIdx⟩
                  · rw [hg2] at h; exact Option.noConfusion h
                  · rw [hg2] at h
                    dsimp only [] at h
                    refine stepFacts_trans hstep (stepFacts_trans
                      (updBlock_facts buf c cur
                        (Graph.BasicBlock.pushInst inst) (fun b => ⟨rfl, rfl⟩))
                      (stepFacts_trans (getBlockAtOffset_facts _ _ _ _ _ _ hg2)
                      (stepFacts_trans (stepFacts_trans
                        (updBlock_facts buf c3 cur
                          (Graph.BasicBlock.addSucc succIdx) (fun b => ⟨rfl, rfl⟩))
                        (updBlock_facts buf _ succIdx
                          (Graph.BasicBlock.addPrev cur) (fun b => ⟨rfl, rfl⟩)))
                      (ih _ _ cur bs h))))
              · rw [if_neg hB] at h
                by_cases hC : (0x0E ≤ inst.opcode ∧ inst.opcode ≤ 0x11) ∨
                    inst.opcode = 0x27
                · rw [if_pos hC] at h
                  by_cases hD : o + inst.length < buf.length ∧
                      buf.getD (o + inst.length) 0 ≠ 0
                  · rw [if_pos hD] at h
                    rcases hg2 : Graph.getBlockAtOffset (some cur)
                        (Graph.updBlock c cur (Graph.BasicBlock.pushInst inst))
                        buf (o + inst.length) with _ | ⟨c3, k⟩
                    · rw [hg2] at h; exact Option.noConfusion h
                    · rw [hg2] at h
                      dsimp only [] at h
                      exact stepFacts_trans hstep (stepFacts_trans
                        (updBlock_facts buf c cur
                          (Graph.BasicBlock.pushInst inst) (fun b => ⟨rfl, rfl⟩))
                        (stepFacts_trans (getBlockAtOffset_facts _ _ _ _ _ _ hg2)
                        (ih _ _ cur bs h)))
                  · rw [if_neg hD] at h
                    exact stepFacts_trans hstep (stepFacts_trans
                      (updBlock_facts buf c cur
                        (Graph.BasicBlock.pushInst inst) (fun b => ⟨rfl, rfl⟩))
                      (ih rest _ cur bs h))
                · rw [if_neg hC] at h
                  by_cases hE : (Graph.updBlock c cur
                      (Graph.BasicBlock.pushInst inst)).offsets.contains
                      (o + inst.length) = true
                  · rw [if_pos hE] at h
                    rcases hg2 : Graph.getBlockAtOffset (some cur)
                        (Graph.updBlock c cur (Graph.BasicBlock.pushInst inst))
                        buf (o + inst.length) with _ | ⟨c3, nIdx⟩
                    · rw [hg2] at h; exact Option.noConfusion h
                    · rw [hg2] at h
                      dsimp only [] at h
                      exact stepFacts_trans hstep (stepFacts_trans
                        (updBlock_facts buf c cur
                          (Graph.BasicBlock.pushInst inst) (fun b => ⟨rfl, rfl⟩))
                        (stepFacts_trans (getBlockAtOffset_facts _ _ _ _ _ _ hg2)
                        (stepFacts_trans (stepFacts_trans
                          (updBlock_facts buf c3 cur
                            (Graph.BasicBlock.addSucc nIdx) (fun b => ⟨rfl, rfl⟩))
                          (updBlock_facts buf _ nIdx
                            (Graph.BasicBlock.addPrev cur) (fun b => ⟨rfl, rfl⟩)))
                        (ih _ _ cur bs h))))
                  · rw [if_neg hE] at h
                    exact stepFacts_trans hstep (stepFacts_trans
                      (updBlock_facts buf c cur
                        (Graph.BasicBlock.pushInst inst) (fun b => ⟨rfl, rfl⟩))
                      (ih _ _ cur bs h))

/-- Claim C2, amended.  What the isolation guarantee of
`dex_parsing/mod.rs::into_blocks` really provides: a method whose
`get_blocks` returns a *structured* error (`Err`, not a panic) is skipped,
and the result over the remaining methods is exactly the result with the
failing method removed — the other methods' blocks are unaffected.  (The
claim's stronger "never terminates the process" is refuted by
`c2_counterexample`: a decode error inside `graph.rs::get_blocks` hits an
`.unwrap()`.) -/
theorem c2_amended (xs ys : List (List Nat)) (bad : List Nat)
    (e : DexParsing.BuildErr)
    (h : DexParsing.getBlocks bad = some (.error e)) :
    DexParsing.intoBlocks (xs ++ bad :: ys) =
      DexParsing.intoBlocks (xs ++ ys) := by
  induction xs with
  | nil =>
    rw [List.nil_append, List.nil_append]
    simp only [DexParsing.intoBlocks]
    rw [h]
  | cons m ms ih =>
    rw [List.cons_append, List.cons_append]
    unfold DexParsing.intoBlocks
    rw [ih]

/-- Witness for `c2_amended`: the method buffer `[0x3E]` (a reserved
opcode byte) fails with a structured parse error, and the batch
`[[14], [0x3E], [14]]` produces exactly the blocks of `[[14], [14]]`. -/
theorem c2_amended_witness :
    DexParsing.getBlocks [0x3E] =
      some (.error (DexParsing.BuildErr.parse 0)) ∧
    DexParsing.intoBlocks [[14], [0x3E], [14]] =
      DexParsing.intoBlocks [[14], [14]] :=
  ⟨rfl, c2_amended [[14]] [[14]] [0x3E] (DexParsing.BuildErr.parse 0) rfl⟩

/-- Claim C3, amended.  What `block.rs::get_block_at_offset` really does
for a target offset `t` that no existing (borrowable) block starts at —
including an offset strictly inside an already-built block's instruction
run: it never splits anything.  It appends one fresh block with *empty*
instruction, predecessor and successor lists (its `exc_entry` flag read
from the word at `t`), registers `t`, and leaves every existing block
untouched. -/
theorem c3_amended (skip : Option Nat) (c : Graph.BlockContainer)
    (buf : List Nat) (t w : Nat)
    (hno : ∀ b ∈ c.blocks, b.offset ≠ t)
    (hw : buf[t]? = some w) :
    Graph.getBlockAtOffset skip c buf t =
      some ({ blocks := c.blocks ++ [⟨t, w == 0x0D, [], [], []⟩],
              offsets := t :: c.offsets }, c.blocks.length) :=
  getBlockAtOffset_create skip c buf t w hno hw

/-- Witness for `c3_amended`: a container holding one block at offset `0`
(with a successor edge), asked for offset `1`, gains exactly the fresh
empty block `⟨1, true, [], [], []⟩` (the word at offset `1` is `0x0D`). -/
theorem c3_amended_witness :
    (∀ b ∈ [(⟨0, false, [], [], [2]⟩ : Graph.BasicBlock)],
      Graph.BasicBlock.offset b ≠ 1) ∧
    Graph.getBlockAtOffset (some 0) ⟨[⟨0, false, [], [], [2]⟩], [0]⟩
        [0, 0x0D, 0] 1 =
      some (⟨[⟨0, false, [], [], [2]⟩, ⟨1, true, [], [], []⟩],
        [1, 0]⟩, 1) :=
  ⟨by decide, c3_amended (some 0) ⟨[⟨0, false, [], [], [2]⟩], [0]⟩
    [0, 0x0D, 0] 1 0x0D (by decide) rfl⟩

/-- Claim C6, amended.  What the `is_exception_entry` flag really is: for
every block of a successfully built graph, the flag equals the test
`raw_bytecode[start_offset] == 0x0D` on the bytecode word at the block's
own start offset (no externally supplied exception-handler ranges are
consulted anywhere — `c6_counterexample` shows the flag following the
bytecode word). -/
theorem c6_amended (dex : IR.DexPool) (buf : List Nat)
    (bs : List Graph.BasicBlock)
    (h : Graph.getBlocks dex buf = some bs) :
    ∀ b ∈ bs, ∃ w, buf[b.offset]? = some w ∧
      b.excEntry = (w == 0x0D) := by
  unfold Graph.getBlocks at h
  rcases hg : Graph.getBlockAtOffset none ⟨[], []⟩ buf 0 with _ | ⟨c0, b0⟩
  · rw [hg] at h; exact Option.noConfusion h
  · rw [hg] at h
    refine (go_spec dex buf _ _ _ _ _ h).2 ?_
    rcases getBlockAtOffset_spec none ⟨[], []⟩ buf 0 c0 b0 hg with
      hsame | ⟨w, hw, happ⟩
    · intro b hb
      rw [hsame] at hb
      exact absurd hb (List.not_mem_nil b)
    · intro b hb
      rw [happ] at hb
      have hbe : b = ⟨0, w == 0x0D, [], [], []⟩ := by simpa using hb
      rw [hbe]
      exact ⟨w, hw, rfl⟩

/-- Witness for `c6_amended`: building over `[14]` (`return-void`) yields
one block whose flag is the test `14 == 0x0D`, i.e. `false`. -/
theorem c6_amended_witness :
    Graph.getBlocks IR.stubPool [14] =
      some [⟨0, false, [], [⟨14, 0, [.packedRegister 0], 1⟩], []⟩] ∧
    ∀ b ∈ [(⟨0, false, [], [⟨14, 0, [.packedRegister 0], 1⟩], []⟩ : Graph.BasicBlock)],
      ∃ w, [14][b.offset]? = some w ∧
        Graph.BasicBlock.excEntry b = (w == 0x0D) :=
  ⟨rfl, c6_amended IR.stubPool [14] _ rfl⟩

/-- Claim C9, amended.  The half of the claim that is true: every
successfully built graph is non-empty and its first (entry) block has
start offset `0`.  (The no-predecessor half is refuted by
`c9_counterexample`: a backward `goto/32` to offset `0` gives the entry
block a predecessor.) -/
theorem c9_amended (dex : IR.DexPool) (buf : List Nat)
    (bs : List Graph.BasicBlock)
    (h : Graph.getBlocks dex buf = some bs) :
    ∃ b0 rest, bs = b0 :: rest ∧ b0.offset = 0 := by
  unfold Graph.getBlocks at h
  rcases hw : buf[0]? with _ | w
  · have h0 : Graph.getBlockAtOffset none ⟨[], []⟩ buf 0 = none := by
      unfold Graph.getBlockAtOffset
      rw [hw]
      rfl
    rw [h0] at h
    exact Option.noConfusion h
  · rw [getBlockAtOffset_create none ⟨[], []⟩ buf 0 w
      (fun b hb => absurd hb (List.not_mem_nil b)) hw] at h
    obtain ⟨hpre, -⟩ := go_spec dex buf _ _ _ _ _ h
    have hpre2 : [0] <+: bs.map Graph.BasicBlock.offset := by
      simpa using hpre
    rcases bs with _ | ⟨b0, rest⟩
    · rcases hpre2 with ⟨t, ht⟩
      simp at ht
    · refine ⟨b0, rest, rfl, ?_⟩
      rcases hpre2 with ⟨t, ht⟩
      have hh := congrArg List.head? ht
      simp at hh
      omega

/-- Witness for `c9_amended`: building over `[14, 14]` yields two blocks,
the first at offset `0`. -/
theorem c9_amended_witness :
    Graph.getBlocks IR.stubPool [14, 14] =
      some [⟨0, false, [], [⟨14, 0, [.packedRegister 0], 1⟩], []⟩,
        ⟨1, false, [], [⟨14, 1, [.packedRegister 0], 1⟩], []⟩] ∧
    ∃ b0 rest,
      [(⟨0, false, [], [⟨14, 0, [.packedRegister 0], 1⟩], []⟩ : Graph.BasicBlock),
        ⟨1, false, [], [⟨14, 1, [.packedRegister 0], 1⟩], []⟩] = b0 :: rest ∧
      Graph.BasicBlock.offset b0 = 0 :=
  ⟨rfl, c9_amended IR.stubPool [14, 14] _ rfl⟩

/-- `modifyIdx` never changes the length of the vector. -/
theorem modifyIdx_length {α : Type} (f : α → α) :
    ∀ (l : List α) (i : Nat), (modifyIdx f l i).length = l.length := by
  intro l
  induction l with
  | nil => intro i; rfl
  | cons a as ih =>
    intro i
    cases i with
    | zero => rfl
    | succ k => simpa [modifyIdx] using ih k

set_option maxHeartbeats 1000000 in
/-- Claim C5, amended.  What one work-list iteration on a conditional
branch (`0x32..=0x3D`) at offset `o` really does, under side conditions
making the two container probes fresh: a fresh *empty* block is created at
the resolved target `jt` (index `n = c.blocks.length`) with the edge
`cur → n`; then a fresh *empty* block is created at `o` — the branch's own
offset, **not** the fallthrough offset `o + length` — with the edge
`cur → n + 1`, and the branch instruction is pushed into that new block
(it does not stay in the current block); finally only the fallthrough
offset `o + inst.length` is enqueued — the branch target `jt` is never
enqueued.  This corrects the claim's "edge to a fallthrough block starting
right after the branch, the branch remaining the last instruction of the
current block, and both offsets enqueued". -/
theorem c5_amended (dex : IR.DexPool) (buf : List Nat) (fuel : Nat)
    (c : Graph.BlockContainer) (cur : Nat) (o jt wjt wo : Nat)
    (rest : List Nat) (inst : IR.Instruction)
    (h1 : o < buf.length)
    (h2 : c.offsets.contains o = false)
    (h3 : IR.tryFromRawBytecode dex buf o = some (.ok (some inst)))
    (h4 : 0x32 ≤ inst.opcode ∧ inst.opcode ≤ 0x3D)
    (h5 : inst.jumpTarget = some jt)
    (h6 : ∀ b ∈ c.blocks, b.offset ≠ jt)
    (h7 : ∀ b ∈ c.blocks, b.offset ≠ o)
    (h8 : jt ≠ o)
    (hwjt : buf[jt]? = some wjt)
    (hwo : buf[o]? = some wo) :
    Graph.go dex buf (fuel + 1) c cur (o :: rest) =
      Graph.go dex buf fuel (Graph.updBlock (Graph.updBlock (Graph.updBlock
        ⟨modifyIdx (Graph.BasicBlock.addPrev cur)
            (modifyIdx (Graph.BasicBlock.addSucc c.blocks.length)
              (c.blocks ++ [⟨jt, wjt == 0x0D, [], [], []⟩]) cur)
            c.blocks.length ++ [⟨o, wo == 0x0D, [], [], []⟩],
          o :: jt :: c.offsets⟩
        cur (Graph.BasicBlock.addSucc (c.blocks.length + 1)))
        (c.blocks.length + 1) (Graph.BasicBlock.addPrev cur))
        (c.blocks.length + 1) (Graph.BasicBlock.pushInst inst))
        cur ((o + inst.length) :: rest) := by
  have hno2 : ∀ b ∈ (Graph.updBlock (Graph.updBlock
      ⟨c.blocks ++ [⟨jt, wjt == 0x0D, [], [], []⟩], jt :: c.offsets⟩
      cur (Graph.BasicBlock.addSucc c.blocks.length)) c.blocks.length
      (Graph.BasicBlock.addPrev cur)).blocks, b.offset ≠ o := by
    intro b hb heq
    have hmem : b.offset ∈ (Graph.updBlock (Graph.updBlock
        ⟨c.blocks ++ [⟨jt, wjt == 0x0D, [], [], []⟩], jt :: c.offsets⟩
        cur (Graph.BasicBlock.addSucc c.blocks.length)) c.blocks.length
        (Graph.BasicBlock.addPrev cur)).blocks.map Graph.BasicBlock.offset :=
      List.mem_map_of_mem _ hb
    rw [show (Graph.updBlock (Graph.updBlock
        ⟨c.blocks ++ [⟨jt, wjt == 0x0D, [], [], []⟩], jt :: c.offsets⟩
        cur (Graph.BasicBlock.addSucc c.blocks.length)) c.blocks.length
        (Graph.BasicBlock.addPrev cur)).blocks =
        modifyIdx (Graph.BasicBlock.addPrev cur)
          (modifyIdx (Graph.BasicBlock.addSucc c.blocks.length)
            (c.blocks ++ [⟨jt, wjt == 0x0D, [], [], []⟩]) cur)
          c.blocks.length from rfl,
      map_modifyIdx Graph.BasicBlock.offset
        (Graph.BasicBlock.addPrev cur) (fun a => rfl),
      map_modifyIdx Graph.BasicBlock.offset
        (Graph.BasicBlock.addSucc c.blocks.length) (fun a => rfl),
      List.map_append] at hmem
    rcases List.mem_append.mp hmem with hm | hm
    · obtain ⟨b2, hb2, he⟩ := List.mem_map.mp hm
      exact h7 b2 hb2 (he.trans heq)
    · have : b.offset = jt := by simpa using hm
      omega
  have hcr1 := getBlockAtOffset_create (some cur) c buf jt wjt h6 hwjt
  have hcr2 := getBlockAtOffset_create (some cur) (Graph.updBlock
    (Graph.updBlock
      ⟨c.blocks ++ [⟨jt, wjt == 0x0D, [], [], []⟩], jt :: c.offsets⟩
      cur (Graph.BasicBlock.addSucc c.blocks.length)) c.blocks.length
    (Graph.BasicBlock.addPrev cur)) buf o wo hno2 hwo
  conv_lhs => unfold Graph.go
  dsimp only []
  rw [if_neg (Nat.not_le.mpr h1)]
  rw [if_neg (show ¬ c.offsets.contains o = true by
    simp only [h2]; exact Bool.false_ne_true)]
  dsimp only []
  rw [h3]
  dsimp only []
  rw [if_pos h4, h5]
  dsimp only []
  rw [hcr1]
  dsimp only []
  rw [hcr2]
  dsimp only []
  rw [show (Graph.updBlock (Graph.updBlock
      ⟨c.blocks ++ [⟨jt, wjt == 0x0D, [], [], []⟩], jt :: c.offsets⟩
      cur (Graph.BasicBlock.addSucc c.blocks.length)) c.blocks.length
      (Graph.BasicBlock.addPrev cur)).blocks =
      modifyIdx (Graph.BasicBlock.addPrev cur)
        (modifyIdx (Graph.BasicBlock.addSucc c.blocks.length)
          (c.blocks ++ [⟨jt, wjt == 0x0D, [], [], []⟩]) cur)
        c.blocks.length from rfl]
  rw [show (Graph.updBlock (Graph.updBlock
      ⟨c.blocks ++ [⟨jt, wjt == 0x0D, [], [], []⟩], jt :: c.offsets⟩
      cur (Graph.BasicBlock.addSucc c.blocks.length)) c.blocks.length
      (Graph.BasicBlock.addPrev cur)).offsets = jt :: c.offsets from rfl]
  rw [modifyIdx_length, modifyIdx_length, List.length_append,
    List.length_singleton]

/-- Witness for `c5_amended`: the second work-list iteration of the build
over `[nop, if-eqz v0 +4, return-void, 0, return-void]` — the branch at
offset `1` with target `5`.  The step creates the empty target block at
`5` and a new block at `1` holding the branch, wires `0 → 1` and `0 → 2`,
and enqueues only the fallthrough offset `3`. -/
theorem c5_amended_witness :
    (IR.tryFromRawBytecode IR.stubPool [0, 0x38, 4, 14, 0, 14] 1 =
      some (.ok (some ⟨0x38, 1, [.packedRegister 0, .branchTarget 4], 2⟩))) ∧
    Graph.go IR.stubPool [0, 0x38, 4, 14, 0, 14] 7
        ⟨[⟨0, false, [], [⟨0, 0, [], 1⟩], []⟩], [0]⟩ 0 [1] =
      Graph.go IR.stubPool [0, 0x38, 4, 14, 0, 14] 6
        ⟨[⟨0, false, [], [⟨0, 0, [], 1⟩], [1, 2]⟩,
          ⟨5, false, [0], [], []⟩,
          ⟨1, false, [0],
            [⟨0x38, 1, [.packedRegister 0, .branchTarget 4], 2⟩], []⟩],
         [1, 5, 0]⟩ 0 [3] :=
  ⟨rfl, c5_amended IR.stubPool [0, 0x38, 4, 14, 0, 14] 6
    ⟨[⟨0, false, [], [⟨0, 0, [], 1⟩], []⟩], [0]⟩ 0 1 5 14 0x38 []
    ⟨0x38, 1, [.packedRegister 0, .branchTarget 4], 2⟩
    (by decide) rfl rfl (by decide) rfl (by decide) (by decide)
    (by decide) rfl rfl⟩

end Dexompiler
